import Mathlib

/-!
# gh-simili: transfer decision and delayed-action lifecycle

A shallow embedding of the transfer-decision step, the pending-action store,
the revert detector and the transfer executor of `gh-simili`, with theorems
about them.

Conventions of the embedding:
* Go `string` values are Lean `String`s (valid UTF-8 text); substring search
  works on the list of characters.
* Go `int` values are `Int`.
* A Go `error` is the text of its message; `Except String α` is a
  `(value, error)` return.
* Calls to collaborators (tracker, similarity index) are recorded in a list
  of `Call`s, oldest first; what they answer is given by an environment.
* `encoding/json`, the language model and the clock are not code of this
  repository: what they answer is given by an environment as well, and the
  theorems hold for every environment. The sample environments serve the
  worked examples only.
-/

namespace Simili

/-! ## Strings -/

/-- Go `strings.Contains` on character lists: `sub` occurs in `s`. -/
def containsChars : List Char → List Char → Bool
  | [], sub => sub.isEmpty
  | c :: cs, sub => sub.isPrefixOf (c :: cs) || containsChars cs sub

/-- Go `strings.Contains(s, sub)`. -/
def Contains (s sub : String) : Bool :=
  containsChars s.data sub.data

/-! ## Data model -/

/-- A tracker comment (`github.Comment`): the fields the code reads. -/
structure Comment where
  ID : Int
  Body : String
  deriving DecidableEq, Repr

/-- An issue (`models.Issue`): the fields the code reads; `UUID` stands for
the result of the method `issue.UUID()`. -/
structure Issue where
  Org : String
  Repo : String
  Number : Int
  Title : String
  Body : String
  UUID : String
  deriving DecidableEq, Repr

/-- Go `time.Time`, kept as the instant it denotes: nanoseconds since the Unix
epoch. The monotonic-clock reading and the location are not part of the
embedding. -/
structure Time where
  unixNano : Int
  deriving DecidableEq, Repr

/-- Go `Time.After`. -/
def Time.After (t u : Time) : Bool := decide (u.unixNano < t.unixNano)

/-- Go `Time.Add` for a duration in nanoseconds. -/
def Time.Add (t : Time) (d : Int) : Time := ⟨t.unixNano + d⟩

/-- Two's-complement wrap-around of a Go `int64` result. -/
def wrapInt64 (x : Int) : Int := (x + 2 ^ 63) % 2 ^ 64 - 2 ^ 63

/-- Go `time.Duration(h) * time.Hour`, an `int64` count of nanoseconds. -/
def hoursDuration (h : Int) : Int := wrapInt64 (h * 3600000000000)

/-- Go `pending.ActionType`, a string type. -/
abbrev ActionType := String

/-- The constant `ActionTypeTransfer`. -/
def ActionTypeTransfer : ActionType := "transfer"

/-- The constant `ActionTypeClose`. -/
def ActionTypeClose : ActionType := "close"

/-- The constant `LabelPendingTransfer`. -/
def LabelPendingTransfer : String := "pending-transfer"

/-- The constant `LabelPendingClose`. -/
def LabelPendingClose : String := "pending-close"

/-- Go `pending.PendingAction`. The field `Type` of the source is `Type_`
here. `Metadata` lists the entries of the Go map by increasing key; a nil map
and an empty map have the same entries and are both `[]`. -/
structure PendingAction where
  Type_ : ActionType
  Org : String
  Repo : String
  IssueNumber : Int
  Target : String
  CommentID : Int
  ScheduledAt : Time
  ExpiresAt : Time
  Metadata : List (String × String)
  deriving DecidableEq, Repr

/-- The predicate of a transfer rule (`config.TransferRule.Match`): the
fields `formatMatchDescription` reads. -/
structure MatchConfig where
  Labels : List String
  TitleContains : List String
  BodyContains : List String
  Author : String
  deriving DecidableEq, Repr

/-- Go `config.TransferRule`, as far as the code under study reads it. -/
structure TransferRule where
  Match : MatchConfig
  deriving DecidableEq, Repr

/-- A call made to a collaborator: the tracker clients or the similarity
index. -/
inductive Call where
  | ListComments (org repo : String) (number : Int)
  | ListCommentReactions (org repo : String) (commentID : Int)
  | RemoveLabel (org repo : String) (number : Int) (label : String)
  | RepoExists (org repo : String)
  | WasAlreadyTransferred (org repo : String) (number : Int)
  | PostComment (org repo : String) (number : Int) (body : String)
  | TransferIssue (org repo : String) (number : Int) (target : String)
  | VectorDelete (collection id : String)
  deriving DecidableEq, Repr

/-- How a Go call of type `error` ends: it returns nil, it returns an error,
or the run-time panics (nil pointer dereference). -/
inductive Ret where
  | ok
  | error (msg : String)
  | panic
  deriving DecidableEq, Repr

/-! ## encoding/json at the type PendingAction

`json.Marshal` and `json.Unmarshal` belong to the Go standard library, not to
this repository. The functions of `manager.go` that call them take them from
an environment, and the theorems about these functions hold for every
environment. -/

/-- Package `encoding/json` at the type `PendingAction`: `Marshal` is
`json.Marshal(action)`, with the text written or the error, and `Unmarshal`
is `json.Unmarshal(text, &action)` on a fresh `PendingAction`, with the
action decoded or the error. -/
structure JsonEnv where
  Marshal : PendingAction → Except String String
  Unmarshal : String → Except String PendingAction

/-! ## The metadata marker (manager.go) -/

/-- The fixed text in front of the payload in `metadataPattern`, its opening
brace included. -/
def pendingPrefix : List Char := "<!-- simili-pending-action: \x7b".data

/-- The fixed text that `metadataPattern` wants after the lazy `.*?`. -/
def pendingSuffix : List Char := "\x7d -->".data

/-- A text without `>` and without line feed. -/
def Plain (l : List Char) : Prop := ∀ c ∈ l, c ≠ '>' ∧ c ≠ '\n'

/-- The lazy `.*?` of `metadataPattern` in front of `pendingSuffix`: the
shortest run of characters other than line feed after which the suffix
follows. -/
def lazyBody : List Char → Option (List Char)
  | [] => none
  | c :: cs =>
    if pendingSuffix.isPrefixOf (c :: cs) then some []
    else if c = '\n' then none
    else
      match lazyBody cs with
      | none => none
      | some m => some (c :: m)

/-- Go `regexp.MustCompile(metadataPattern).FindStringSubmatch(body)[1]`: the
first capture of the leftmost match, `none` when there is no match. -/
def pendingMatch : List Char → Option (List Char)
  | [] => none
  | c :: cs =>
    if pendingPrefix.isPrefixOf (c :: cs) then
      match lazyBody ((c :: cs).drop pendingPrefix.length) with
      | some m => some ('\x7b' :: m ++ ['\x7d'])
      | none => pendingMatch cs
    else pendingMatch cs

/-- Go `FormatPendingActionMetadata`: the error of `json.Marshal` is dropped
and `data` is then empty. -/
def FormatPendingActionMetadata (js : JsonEnv) (action : PendingAction) : String :=
  let data : String :=
    match js.Marshal action with
    | .ok data => data
    | .error _ => ""
  "<!-- simili-pending-action: " ++ data ++ " -->"

/-- Go `ParsePendingActionMetadata`. -/
def ParsePendingActionMetadata (js : JsonEnv) (commentBody : String) :
    Except String PendingAction :=
  match pendingMatch commentBody.data with
  | none => .error "metadata not found"
  | some payload =>
    match js.Unmarshal (String.mk payload) with
    | .error e => .error ("failed to parse metadata: " ++ e)
    | .ok action => .ok action

/-- Go `Manager.extractPendingAction`, after `ListComments` has answered. The
result is the action or the error; the loop visits the comments in the order
of the list. -/
def extractLoop (js : JsonEnv) (issue : Issue) (actionType : ActionType) :
    List Comment → Except String PendingAction
  | [] => .error "pending action not found"
  | comment :: rest =>
    match pendingMatch comment.Body.data with
    | none => extractLoop js issue actionType rest
    | some payload =>
      match js.Unmarshal (String.mk payload) with
      | .error _ => extractLoop js issue actionType rest
      | .ok action =>
        if action.Type_ = actionType ∧ action.IssueNumber = issue.Number then
          .ok { action with Org := issue.Org, Repo := issue.Repo }
        else extractLoop js issue actionType rest

/-- Go `Manager.extractPendingAction`; `listComments` is what `ListComments`
answers for the issue. -/
def extractPendingAction (js : JsonEnv) (listComments : Except String (List Comment))
    (issue : Issue) (actionType : ActionType) : Except String PendingAction :=
  match listComments with
  | .error e => .error e
  | .ok comments => extractLoop js issue actionType comments

/-- What one comment contributes to `extractPendingAction`: the action of
its marker when the marker parses and the type and issue number are the
expected ones, with org and repo taken from the issue. -/
def candidateAction (js : JsonEnv) (issue : Issue) (actionType : ActionType)
    (comment : Comment) : Option PendingAction :=
  match ParsePendingActionMetadata js comment.Body with
  | .error _ => none
  | .ok action =>
    if action.Type_ = actionType ∧ action.IssueNumber = issue.Number then
      some { action with Org := issue.Org, Repo := issue.Repo }
    else none

/-- A pending transfer of issue 7 to `o2/r2`, scheduled in January 2026, with
a target, and metadata values, that contain a brace, `-->`, angle brackets,
a line feed and quotes. -/
def sampleAction : PendingAction :=
  ⟨"transfer", "o", "r", 7, "o2/r2 \x7d --> <b>\n\"x\"", -11, ⟨1769600000123456000⟩,
    ⟨1769686400000000000⟩, [("a", "1"), ("b", "\x7d\n-->")]⟩

/-- A later pending transfer of the same issue, to `o3/r3`, without
metadata. -/
def laterAction : PendingAction :=
  ⟨"transfer", "o", "r", 7, "o3/r3", 12, ⟨1769700000000000000⟩, ⟨1769786400000000000⟩, []⟩

/-- A pending transfer that expires at 10000-01-01T00:00:00 UTC. -/
def farFutureAction : PendingAction :=
  ⟨"transfer", "o", "r", 7, "o2/r2", 11, ⟨0⟩, ⟨253402300800000000000⟩, []⟩

/-- The zero `time.Time` of Go: 0001-01-01T00:00:00 UTC. -/
def zeroTime : Time := ⟨-62135596800000000000⟩

/-- What `json.Unmarshal` decodes from `spacedText`: the three members given,
every other field at its zero value. -/
def spacedAction : PendingAction :=
  ⟨"transfer", "", "", 7, "spaced/one", 0, zeroTime, zeroTime, []⟩

/-- What `json.Unmarshal` decodes from `otherIssueText`. -/
def otherIssueAction : PendingAction :=
  ⟨"transfer", "", "", 8, "o8/r8", 0, zeroTime, zeroTime, []⟩

/-- The members of the object `json.Marshal` writes for `sampleAction`, its
timestamps held in UTC: `>`, `<` and the line feed are escaped, the brace is
not. -/
def sampleBody : List Char :=
  ("\"type\":\"transfer\",\"org\":\"o\",\"repo\":\"r\",\"issue_number\":7," ++
   "\"target\":\"o2/r2 \x7d --\\u003e \\u003cb\\u003e\\n\\\"x\\\"\",\"comment_id\":-11," ++
   "\"scheduled_at\":\"2026-01-28T11:33:20.123456Z\"," ++
   "\"expires_at\":\"2026-01-29T11:33:20Z\"," ++
   "\"metadata\":\x7b\"a\":\"1\",\"b\":\"\x7d\\n--\\u003e\"\x7d").data

/-- The members of the object `json.Marshal` writes for `laterAction`, its
timestamps held in UTC; the empty map is left out. -/
def laterBody : List Char :=
  ("\"type\":\"transfer\",\"org\":\"o\",\"repo\":\"r\",\"issue_number\":7," ++
   "\"target\":\"o3/r3\",\"comment_id\":12," ++
   "\"scheduled_at\":\"2026-01-29T15:20:00Z\"," ++
   "\"expires_at\":\"2026-01-30T15:20:00Z\"").data

/-- A payload written by hand, with white space between the tokens. -/
def spacedText : String :=
  "\x7b \"type\": \"transfer\", \"issue_number\": 7, \"target\": \"spaced/one\" \x7d"

/-- A payload for another issue number. -/
def otherIssueText : String :=
  "\x7b\"type\":\"transfer\",\"issue_number\":8,\"target\":\"o8/r8\"\x7d"

/-- A sample of `encoding/json`: what it answers on the sample actions and
the sample payloads, and an error everywhere else. -/
def sampleJson : JsonEnv :=
  { Marshal := fun a =>
      if a = sampleAction then .ok (String.mk ('\x7b' :: sampleBody ++ ['\x7d']))
      else if a = laterAction then .ok (String.mk ('\x7b' :: laterBody ++ ['\x7d']))
      else if a = farFutureAction then
        .error ("json: error calling MarshalJSON for type time.Time: " ++
          "Time.MarshalJSON: year outside of range [0,9999]")
      else .error "not a sample action"
    Unmarshal := fun text =>
      if text.data = '\x7b' :: sampleBody ++ ['\x7d'] then .ok sampleAction
      else if text.data = '\x7b' :: laterBody ++ ['\x7d'] then .ok laterAction
      else if text = spacedText then .ok spacedAction
      else if text = otherIssueText then .ok otherIssueAction
      else .error "not a sample payload" }

/-! ## RevertManager.CheckForRevert (revert.go, reactions.go) -/

/-- Go `transfer.RevertAction`. -/
structure RevertAction where
  SourceOrg : String
  SourceRepo : String
  CommentID : Int
  deriving DecidableEq, Repr

/-- Go `github.Reaction`; `User` is the login of the reacting user. -/
structure Reaction where
  Content : String
  User : String
  deriving DecidableEq, Repr

/-- Go `transfer.TransferSourceMetadata`, whose declaration is not among the
source files: the two fields `CheckForRevert` reads. -/
structure TransferSourceMetadata where
  Org : String
  Repo : String
  deriving DecidableEq, Repr

/-- The fixed text in front of the payload in `revertMetadataPattern`, its
opening brace included. -/
def revertPrefix : List Char := "<!-- simili-transfer-source: \x7b".data

/-- What follows the first occurrence of `pat` in a text. -/
def afterFirst (pat : List Char) : List Char → Option (List Char)
  | [] => if pat.isEmpty then some [] else none
  | c :: cs =>
    if pat.isPrefixOf (c :: cs) then some ((c :: cs).drop pat.length)
    else afterFirst pat cs

/-- What precedes the last occurrence of `pat` in a text. -/
def beforeLast (pat : List Char) : List Char → Option (List Char)
  | [] => if pat.isEmpty then some [] else none
  | c :: cs =>
    match beforeLast pat cs with
    | some m => some (c :: m)
    | none => if pat.isPrefixOf (c :: cs) then some [] else none

/-- Go `revertMetadataRegex.FindStringSubmatch(body)[1]`: the first capture of
the leftmost match of the pattern with flag `s`, whose `.*` is greedy and
also matches line feeds; `none` when there is no match. -/
def revertMatch (body : String) : Option String :=
  match afterFirst revertPrefix body.data with
  | none => none
  | some rest =>
    match beforeLast pendingSuffix rest with
    | none => none
    | some m => some (String.mk ('\x7b' :: m ++ ['\x7d']))

/-- What surrounds one call of `CheckForRevert`: the three configuration
values it reads, what `ListComments` answers for the issue, what
`ListCommentReactions` answers for a comment id, and `json.Unmarshal` into a
`TransferSourceMetadata`. -/
structure RevertEnv where
  DelayedEnabled : Bool
  OptimisticTransfers : Bool
  CancelReaction : String
  ListComments : Except String (List Comment)
  ListCommentReactions : Int → Except String (List Reaction)
  UnmarshalSource : String → Except String TransferSourceMetadata

/-- Go `Client.HasReaction`, after `ListCommentReactions` has answered. -/
def HasReaction (reactions : Except String (List Reaction)) (reactionType : String) :
    Except String Bool :=
  match reactions with
  | .error e => .error e
  | .ok rs => .ok (rs.any fun r => r.Content == reactionType)

/-- The comment loop of `CheckForRevert`: the action found, if any, and the
tracker calls made. -/
def checkLoop (env : RevertEnv) (issue : Issue) : List Comment → Option RevertAction × List Call
  | [] => (none, [])
  | comment :: rest =>
    match revertMatch comment.Body with
    | none => checkLoop env issue rest
    | some payload =>
      match env.UnmarshalSource payload with
      | .error _ => checkLoop env issue rest
      | .ok metadata =>
        let call := Call.ListCommentReactions issue.Org issue.Repo comment.ID
        match HasReaction (env.ListCommentReactions comment.ID) env.CancelReaction with
        | .ok true => (some ⟨metadata.Org, metadata.Repo, comment.ID⟩, [call])
        | _ => ((checkLoop env issue rest).1, call :: (checkLoop env issue rest).2)

/-- Go `RevertManager.CheckForRevert`: the returned pair (`.ok none` is
`nil, nil`) and the tracker calls made. -/
def CheckForRevert (env : RevertEnv) (issue : Issue) :
    Except String (Option RevertAction) × List Call :=
  if !env.DelayedEnabled || !env.OptimisticTransfers then (.ok none, [])
  else
    match env.ListComments with
    | .error e =>
      (.error ("failed to list comments: " ++ e), [.ListComments issue.Org issue.Repo issue.Number])
    | .ok comments =>
      (.ok (checkLoop env issue comments).1,
        .ListComments issue.Org issue.Repo issue.Number :: (checkLoop env issue comments).2)

/-- The verdict of one comment for `CheckForRevert`: the revert it asks
for, when its marker matches and decodes and its reactions, read without
error, include the cancel reaction. -/
def revertVerdict (env : RevertEnv) (comment : Comment) : Option RevertAction :=
  match revertMatch comment.Body with
  | none => none
  | some payload =>
    match env.UnmarshalSource payload with
    | .error _ => none
    | .ok metadata =>
      match HasReaction (env.ListCommentReactions comment.ID) env.CancelReaction with
      | .ok true => some ⟨metadata.Org, metadata.Repo, comment.ID⟩
      | _ => none

/-- A decoder of transfer-source payloads that knows the two payloads used
below. -/
def sampleUnmarshalSource (payload : String) : Except String TransferSourceMetadata :=
  if payload = "\x7b\"org\":\"src\",\"repo\":\"home\"\x7d" then .ok ⟨"src", "home"⟩
  else if payload = "\x7b\"org\":\"old\",\"repo\":\"place\"\x7d" then .ok ⟨"old", "place"⟩
  else .error "invalid character"

/-- Two comments with a transfer-source marker: comment 21 names `src/home`
and has a thumbs-up only, comment 22 names `old/place` and has the cancel
reaction `-1`. -/
def twoMarkers : RevertEnv :=
  { DelayedEnabled := true
    OptimisticTransfers := true
    CancelReaction := "-1"
    ListComments := .ok
      [⟨21, "Moved. <!-- simili-transfer-source: \x7b\"org\":\"src\",\"repo\":\"home\"\x7d -->"⟩,
       ⟨22, "Moved. <!-- simili-transfer-source: \x7b\"org\":\"old\",\"repo\":\"place\"\x7d -->"⟩]
    ListCommentReactions := fun id =>
      if id = 21 then .ok [⟨"+1", "alice"⟩] else .ok [⟨"-1", "bob"⟩]
    UnmarshalSource := sampleUnmarshalSource }

/-! ## TransferCheck.isReverted (transfer_check.go) -/

/-- The literal `revertMarker` of `isReverted`: U+21A9 U+FE0F followed by
" Reverting transfer". -/
def revertMarker : String := "\u21a9\ufe0f Reverting transfer"

/-- The comment loop of `isReverted`,
`for i := len(comments) - 1; i >= 0; i-- { ... }`.
The argument `k` is `i + 1`; so `k = 0` is the loop exit `i < 0`. -/
def isRevertedLoop (comments : List Comment) : Nat → Bool
  | 0 => false
  | i + 1 =>
    if Contains (comments.getD i ⟨0, ""⟩).Body revertMarker then true
    else if (i : Int) < (comments.length : Int) - 5 then false
    else isRevertedLoop comments i

/-- Go `TransferCheck.isReverted`. `gh` is `none` when the step has no tracker
client (`s.gh == nil`); otherwise it holds what `ListComments` returns for
the issue. -/
def isReverted (gh : Option (Except String (List Comment))) (issue : Issue) : Bool :=
  if Contains issue.Body revertMarker then true
  else
    match gh with
    | some (.ok comments) => isRevertedLoop comments comments.length
    | _ => false

/-! ## Manager.Cancel (manager.go) -/

/-- Go `Manager.Cancel`: the returned error and the calls made to the
tracker. `removeLabel` is what `RemoveLabel` answers (its error, if any). -/
def Cancel (removeLabel : Option String) (action : PendingAction) : Ret × List Call :=
  let label : Except String String :=
    if action.Type_ = ActionTypeTransfer then .ok LabelPendingTransfer
    else if action.Type_ = ActionTypeClose then .ok LabelPendingClose
    else .error ("unknown action type: " ++ action.Type_)
  match label with
  | .error e => (.error e, [])
  | .ok label =>
    (match removeLabel with
      | none => .ok
      | some e => .error e,
     [Call.RemoveLabel action.Org action.Repo action.IssueNumber label])

/-! ## Executor (executor.go) -/

/-- Go `formatMatchDescription`. The argument is the pointer `rule`; for a
nil pointer the first statement that reads `rule.Match` dereferences nil and
the run-time panics, which is the result `none`. -/
def formatMatchDescription : Option TransferRule → Option String
  | none => none
  | some rule =>
    let parts : List String := []
    let parts :=
      if rule.Match.Labels.length > 0 then
        parts ++ ["`labels: [" ++ ", ".intercalate rule.Match.Labels ++ "]`"]
      else parts
    let parts :=
      if rule.Match.TitleContains.length > 0 then
        parts ++ ["`title_contains: [" ++ ", ".intercalate rule.Match.TitleContains ++ "]`"]
      else parts
    let parts :=
      if rule.Match.BodyContains.length > 0 then
        parts ++ ["`body_contains: [" ++ ", ".intercalate rule.Match.BodyContains ++ "]`"]
      else parts
    let parts :=
      if rule.Match.Author ≠ "" then
        parts ++ ["`author: " ++ rule.Match.Author ++ "`"]
      else parts
    if parts.length = 0 then some "routing rules"
    else some (" + ".intercalate parts)

/-- Go `formatTransferComment`; `none` when `formatMatchDescription` panics.
The text is the literal of the source file, character for character. -/
def formatTransferComment (targetRepo : String) (rule : Option TransferRule) : Option String :=
  match formatMatchDescription rule with
  | none => none
  | some matchDesc =>
    some ("\u00f0\u0178\u0161\u0161 This issue has been automatically transferred to **" ++ targetRepo ++
      "** because it matches our routing rules.\n\n**Matched rule:** " ++ matchDesc ++
      "\n\nThe discussion will continue there. Thanks for your report!\n\n---\n" ++
      "<sub>\u00f0\u0178\u00a4\u2013 Powered by [Simili](https://github.com/Kavirubc/gh-simili)</sub>")

/-- The tracker and the similarity index as `Transfer` sees them across
calls: the issues whose transfer has been performed, every collaborator
call made so far, oldest first, and what the executor has written to
standard output. -/
structure Tracker where
  transferred : List (String × String × Int)
  calls : List Call
  printed : List String
  deriving DecidableEq, Repr

/-- What the collaborators answer during one call of `Transfer`.
`ParseRepo` is `github.ParseRepo` and `CollectionName` is
`vectordb.CollectionName`, neither of which is among the source files; the
other fields are the errors returned by the named calls (`none`: success). -/
structure Answers where
  ParseRepo : String → Except String (String × String)
  RepoExists : String → String → Except String Bool
  WasAlreadyTransferredErr : Option String
  PostCommentErr : Option String
  TransferIssueErr : Option String
  DeleteErr : Option String
  CollectionName : String → String

/-- The tracker-side answer of `WasAlreadyTransferred`: true once a transfer
of the issue has been performed. -/
def Tracker.wasTransferred (t : Tracker) (issue : Issue) : Bool :=
  decide ((issue.Org, issue.Repo, issue.Number) ∈ t.transferred)

/-- Add a call to the trace. -/
def Tracker.record (t : Tracker) (c : Call) : Tracker :=
  { t with calls := t.calls ++ [c] }

/-- Go `Executor.Transfer`, with the executor's `dryRun` flag as first
argument. Returns how the call ends and the tracker after it. -/
def Transfer (dryRun : Bool) (ans : Answers) (issue : Issue) (targetRepo : String)
    (rule : Option TransferRule) (t : Tracker) : Ret × Tracker :=
  match ans.ParseRepo targetRepo with
  | .error e => (.error e, t)
  | .ok (targetOrg, targetRepoName) =>
    let t := t.record (.RepoExists targetOrg targetRepoName)
    match ans.RepoExists targetOrg targetRepoName with
    | .error e => (.error ("failed to check target repo: " ++ e), t)
    | .ok false => (.error ("target repo " ++ targetRepo ++ " does not exist"), t)
    | .ok true =>
      let t := t.record (.WasAlreadyTransferred issue.Org issue.Repo issue.Number)
      match ans.WasAlreadyTransferredErr with
      | some e => (.error ("failed to check transfer status: " ++ e), t)
      | none =>
        if t.wasTransferred issue then (.ok, t)
        else if dryRun then (.ok, t)
        else
          match formatTransferComment targetRepo rule with
          | none => (.panic, t)
          | some comment =>
            let t := t.record (.PostComment issue.Org issue.Repo issue.Number comment)
            match ans.PostCommentErr with
            | some e => (.error ("failed to post transfer comment: " ++ e), t)
            | none =>
              let t := t.record (.TransferIssue issue.Org issue.Repo issue.Number targetRepo)
              match ans.TransferIssueErr with
              | some e => (.error ("failed to transfer issue: " ++ e), t)
              | none =>
                let t := { t with transferred := (issue.Org, issue.Repo, issue.Number) :: t.transferred }
                let t := t.record (.VectorDelete (ans.CollectionName issue.Org) issue.UUID)
                match ans.DeleteErr with
                | some e =>
                  (.ok, { t with printed := t.printed ++ ["Warning: failed to delete old vector: " ++ e ++ "\n"] })
                | none => (.ok, t)

/-- The number of `PostComment` calls in a trace. -/
def countPostComment (cs : List Call) : Nat :=
  cs.countP fun c => match c with
    | .PostComment _ _ _ _ => true
    | _ => false

/-- The number of `TransferIssue` calls in a trace. -/
def countTransferIssue (cs : List Call) : Nat :=
  cs.countP fun c => match c with
    | .TransferIssue _ _ _ _ => true
    | _ => false

/-- The number of `VectorDelete` calls in a trace. -/
def countVectorDelete (cs : List Call) : Nat :=
  cs.countP fun c => match c with
    | .VectorDelete _ _ => true
    | _ => false

/-- An environment in which the target parses as `o2/r2` and every
collaborator call succeeds. -/
def allFine : Answers :=
  { ParseRepo := fun _ => .ok ("o2", "r2")
    RepoExists := fun _ _ => .ok true
    WasAlreadyTransferredErr := none
    PostCommentErr := none
    TransferIssueErr := none
    DeleteErr := none
    CollectionName := fun org => "issues_" ++ org }

/-- A sample issue `o/r#7`. -/
def sampleIssue : Issue := ⟨"o", "r", 7, "title", "plain body", "uuid-7"⟩

/-- A rule with no predicate field set. -/
def emptyRule : TransferRule := ⟨⟨[], [], [], ""⟩⟩

/-- The environment `allFine`, except that the privileged transfer fails. -/
def transferFails : Answers := { allFine with TransferIssueErr := some "HTTP 502" }

/-- The environment `allFine`, except that the existence check fails. -/
def existsFails : Answers := { allFine with RepoExists := fun _ _ => .error "HTTP 502" }

/-- A tracker on which nothing has happened yet. -/
def freshTracker : Tracker := ⟨[], [], []⟩

/-! ## TransferCheck.Run (transfer_check.go) -/

/-- The per-repository configuration returned by `GetRepoConfig`: the field
`Run` reads. -/
structure RepoConfig where
  TransferRules : List TransferRule
  deriving DecidableEq, Repr

/-- Go `triage.RoutingResult`. `Confidence` is a `float64` decoded from JSON,
hence a finite number, kept as the rational it denotes. The Go constant `0.8`
is the least `float64` that is at least 4/5, so on `float64` values
`Confidence >= 0.8` holds exactly when the value is at least 4/5. -/
structure RoutingResult where
  TargetRepo : String
  Confidence : ℚ
  Reason : String
  deriving DecidableEq, Repr

/-- Go `core.Context`, as far as `Run` reads and writes it; `PendingAction`
is `ctx.Result.PendingAction`. -/
structure Context where
  Issue : Issue
  TransferTarget : String
  PendingAction : Option PendingAction
  deriving DecidableEq, Repr

/-- What surrounds one call of `Run`: configuration, collaborators and
clock. `gh` is `none` for a step without tracker client and otherwise what
`ListComments` answers; `Match` is the target returned by
`transfer.NewRuleMatcher(rules).Match(issue)` and `Route` is what
`router.Route` returns when it is called (`.ok none` for a nil result);
`now1` and `now2` are the two successive readings of `time.Now()`;
`ToLower` is `strings.ToLower`. -/
structure RunEnv where
  repoConfig : Option RepoConfig
  gh : Option (Except String (List Comment))
  Match : List TransferRule → Issue → String
  RouterEnabled : Bool
  Route : Except String (Option RoutingResult)
  DelayedEnabled : Bool
  DelayHours : Int
  now1 : Time
  now2 : Time
  ToLower : String → String

/-- What one call of `Run` leaves behind: the context, the returned error
(`none` for nil), whether `router.Route` was called, and the last value of the
local variable `target` (empty when `Run` returns before declaring it). -/
structure RunResult where
  ctx : Context
  err : Option String
  routed : Bool
  target : String
  deriving DecidableEq, Repr

/-- Step 3 of `Run`, the body of `if target == "" && Router.Enabled`: the
value of `target` after the router has answered. -/
def aiTarget (env : RunEnv) (issue : Issue) (target : String) : String :=
  match env.Route with
  | .error _ => target
  | .ok none => target
  | .ok (some result) =>
    if (4 / 5 : ℚ) ≤ result.Confidence then
      let currentRepo := env.ToLower (issue.Org ++ "/" ++ issue.Repo)
      if env.ToLower result.TargetRepo ≠ currentRepo then result.TargetRepo
      else target
    else target

/-- Go `TransferCheck.Run`. Log output is not part of the embedding. -/
def Run (env : RunEnv) (ctx : Context) : RunResult :=
  match env.repoConfig with
  | none => ⟨ctx, none, false, ""⟩
  | some repoConfig =>
    if isReverted env.gh ctx.Issue then ⟨ctx, none, false, ""⟩
    else
      let target : String := ""
      let target :=
        if repoConfig.TransferRules.length > 0 then env.Match repoConfig.TransferRules ctx.Issue
        else target
      let routed : Bool := decide (target = "") && env.RouterEnabled
      let target := if routed then aiTarget env ctx.Issue target else target
      if target = "" then ⟨ctx, none, routed, target⟩
      else
        let ctx := { ctx with TransferTarget := target }
        if env.DelayedEnabled then
          let expiresAt := env.now1.Add (hoursDuration env.DelayHours)
          ⟨{ ctx with
              PendingAction := some
                { Type_ := ActionTypeTransfer
                  Org := ctx.Issue.Org
                  Repo := ctx.Issue.Repo
                  IssueNumber := ctx.Issue.Number
                  Target := target
                  CommentID := 0
                  ScheduledAt := env.now2
                  ExpiresAt := expiresAt
                  Metadata := [] } },
            none, routed, target⟩
        else ⟨ctx, none, routed, target⟩

/-! ## RevertManager.Revert (revert.go) -/

/-- The comment body `revertMsg` that `Revert` builds. -/
def revertMsg (action : RevertAction) : String :=
  "\u21a9\ufe0f Reverting transfer. Moving issue back to **" ++
    (action.SourceOrg ++ "/" ++ action.SourceRepo) ++ "** based on user request."

/-- Go `RevertManager.Revert`. `postErr` is the error `PostComment` returns,
if any; `executeTransfer` is the executor method of that name, which is not
among the source files. -/
def Revert (postErr : Option String)
    (executeTransfer : Issue → String → Option TransferRule → Tracker → Ret × Tracker)
    (issue : Issue) (action : RevertAction) (t : Tracker) : Ret × Tracker :=
  let targetRepo := action.SourceOrg ++ "/" ++ action.SourceRepo
  let t := t.record (.PostComment issue.Org issue.Repo issue.Number (revertMsg action))
  match postErr with
  | some e => (.error ("failed to post revert comment: " ++ e), t)
  | none =>
    match executeTransfer issue targetRepo none t with
    | (.error e, t) => (.error ("failed to execute revert transfer: " ++ e), t)
    | (r, t) => (r, t)

/-- A run environment for `o/r` with one rule that always matches `o2/r2`,
the router enabled and answering `o3/r3` with confidence 0.95, and the given
comment listing. -/
def eagerEnv (comments : List Comment) : RunEnv :=
  { repoConfig := some ⟨[emptyRule]⟩
    gh := some (.ok comments)
    Match := fun _ _ => "o2/r2"
    RouterEnabled := true
    Route := .ok (some ⟨"o3/r3", 19 / 20, "backend topic"⟩)
    DelayedEnabled := true
    DelayHours := 24
    now1 := ⟨1000⟩
    now2 := ⟨1001⟩
    ToLower := String.toLower }

/-- A run environment for `o/r` without rules, the router enabled and
answering with the given result. -/
def routerEnv (result : RoutingResult) : RunEnv :=
  { repoConfig := some ⟨[]⟩
    gh := some (.ok [])
    Match := fun _ _ => ""
    RouterEnabled := true
    Route := .ok (some result)
    DelayedEnabled := false
    DelayHours := 24
    now1 := ⟨1000⟩
    now2 := ⟨1001⟩
    ToLower := String.toLower }

/-- The environment `eagerEnv` of a step whose tracker client fails to list
the comments. -/
def listingFailsEnv : RunEnv :=
  { eagerEnv [] with gh := some (.error "HTTP 502") }

/-- The environment `eagerEnv` of a step without tracker client. -/
def noClientEnv : RunEnv :=
  { eagerEnv [] with gh := none }

/-! ## PendingAction.IsExpired (manager.go) -/

/-- Go `PendingAction.IsExpired`; `now` is the reading of `time.Now()`. -/
def IsExpired (now : Time) (a : PendingAction) : Bool := now.After a.ExpiresAt

/-! ## Router (router.go) -/

/-- Go `config.RepositoryConfig`: the fields `Route` reads. -/
structure RepositoryConfig where
  Org : String
  Repo : String
  Description : String
  Enabled : Bool
  deriving DecidableEq, Repr

/-- Go `unicode.IsSpace`: the characters with the Unicode property
White_Space. -/
def isSpace (c : Char) : Bool :=
  c = '\t' || c = '\n' || c = '\x0b' || c = '\x0c' || c = '\r' || c = ' ' ||
  c = '\u0085' || c = '\u00a0' || c = '\u1680' ||
  (decide (0x2000 ≤ c.toNat) && decide (c.toNat ≤ 0x200a)) ||
  c = '\u2028' || c = '\u2029' || c = '\u202f' || c = '\u205f' || c = '\u3000'

/-- Go `strings.TrimSpace` on character lists. -/
def trimSpaceChars (l : List Char) : List Char :=
  ((l.dropWhile isSpace).reverse.dropWhile isSpace).reverse

/-- Go `strings.TrimPrefix` on character lists. -/
def trimPrefixChars (l pre : List Char) : List Char :=
  if pre.isPrefixOf l then l.drop pre.length else l

/-- Go `strings.TrimSuffix` on character lists. -/
def trimSuffixChars (l suf : List Char) : List Char :=
  if suf.isSuffixOf l then l.take (l.length - suf.length) else l

/-- The text that `parseRoutingResponse` hands to `json.Unmarshal`: the
response after `TrimSpace`, `TrimPrefix` of the fence with and without
`json`, `TrimSuffix` of the fence and `TrimSpace` again. -/
def cleanResponse (response : String) : String :=
  let r := trimSpaceChars response.data
  let r := trimPrefixChars r "```json".data
  let r := trimPrefixChars r "```".data
  let r := trimSuffixChars r "```".data
  String.mk (trimSpaceChars r)

/-- What surrounds a router: `Complete` is `llm.CompleteWithSystem`,
`Unmarshal` is `json.Unmarshal` into a `RoutingResult`, and `truncateText` is
the helper of that name, which is not among the source files. -/
structure RouterEnv where
  Complete : String → String → Except String String
  Unmarshal : String → Except String RoutingResult
  truncateText : String → Int → String

/-- Go `Router.parseRoutingResponse`. Log output is not part of the
embedding. -/
def parseRoutingResponse (env : RouterEnv) (response : String) : Except String RoutingResult :=
  match env.Unmarshal (cleanResponse response) with
  | .error e => .error ("failed to parse AI routing response: " ++ e)
  | .ok result => .ok result

/-- The slice `destinations` that `Route` builds: one line for each
repository that is enabled and has a description. -/
def destinations : List RepositoryConfig → List String
  | [] => []
  | repo :: rest =>
    if repo.Enabled ∧ repo.Description ≠ "" then
      ("- " ++ repo.Org ++ "/" ++ repo.Repo ++ ": " ++ repo.Description) :: destinations rest
    else destinations rest

/-- The literal `system` of `Route`. -/
def routerSystem : String :=
  "You are an expert GitHub issue router. Your task is to analyze the intent " ++
  "of an issue and decide which repository it belongs in.\nRespond ONLY with " ++
  "a JSON object containing:\n- \"target_repo\": The \"org/repo\" string " ++
  "of the destination, or the current repo if it belongs here.\n- \"confidence\": " ++
  "A float from 0 to 1.\n- \"reason\": A brief explanation of why this intent " ++
  "matches the repository description.\n\nIf the issue clearly belongs in " ++
  "its current repository, \"target_repo\" should match the current repo."

/-- The text `prompt` that `Route` builds. -/
def routerPrompt (env : RouterEnv) (repos : List RepositoryConfig) (issue : Issue) : String :=
  "Current Repository: " ++ issue.Org ++ "/" ++ issue.Repo ++
    "\n\nIssue Title: " ++ issue.Title ++
    "\n\nIssue Description:\n" ++ env.truncateText issue.Body 3000 ++
    "\n\nAvailable Repositories and their purposes:\n" ++ "\n".intercalate (destinations repos) ++
    "\n\nAnalyze the issue intent. Does it belong in a different repository based on the descriptions? Return JSON only."

/-- Go `Router.Route`: the returned pair (`.ok none` is `nil, nil`) and the
calls made to the language model, each with its system text and prompt. -/
def Route (env : RouterEnv) (repos : List RepositoryConfig) (issue : Issue) :
    Except String (Option RoutingResult) × List (String × String) :=
  if (destinations repos).length = 0 then (.ok none, [])
  else
    let system := routerSystem
    let prompt := routerPrompt env repos issue
    match env.Complete system prompt with
    | .error e => (.error ("AI routing completion failed: " ++ e), [(system, prompt)])
    | .ok response =>
      (match parseRoutingResponse env response with
        | .error e => .error e
        | .ok result => .ok (some result),
       [(system, prompt)])

/-- The reply of the model in the first case of the router test. -/
def sampleReply : String :=
  "\x7b\"target_repo\": \"similigh/nexusflow-core\", \"confidence\": 0.95, " ++
  "\"reason\": \"Server bug\"\x7d"

/-- A decoder of routing replies that knows `sampleReply` and rejects every
other text. -/
def sampleUnmarshalRouting (text : String) : Except String RoutingResult :=
  if text = sampleReply then .ok ⟨"similigh/nexusflow-core", 19 / 20, "Server bug"⟩
  else .error "invalid character"

/-- A router environment whose model always answers with `reply`. -/
def replyEnv (reply : String) : RouterEnv :=
  { Complete := fun _ _ => .ok reply
    Unmarshal := sampleUnmarshalRouting
    truncateText := fun s _ => s }

/-- The two repositories of the router test, both enabled and described. -/
def testRepos : List RepositoryConfig :=
  [⟨"similigh", "nexusflow-core", "Core engine logic", true⟩,
   ⟨"similigh", "nexusflow-docs", "Documentation and guides", true⟩]

/-! ## Theorems -/

/-- The comment loop of `isReverted`, started inside the window it inspects:
it answers true exactly when one of the comments at distance at most six from
the end of the list, below index `k`, contains the marker. -/
theorem isRevertedLoop_iff (comments : List Comment) :
    ∀ k : Nat, k ≤ comments.length → comments.length ≤ k + 5 →
      (isRevertedLoop comments k = true ↔
        ∃ i, i < k ∧ comments.length ≤ i + 6 ∧
          Contains (comments.getD i ⟨0, ""⟩).Body revertMarker = true) := by
  intro k
  induction k with
  | zero => intro _ _; simp [isRevertedLoop]
  | succ i ih =>
    intro hk hwin
    unfold isRevertedLoop
    by_cases hc : Contains (comments.getD i ⟨0, ""⟩).Body revertMarker = true
    · simp only [hc, if_true, true_iff]
      exact ⟨i, Nat.lt_succ_self i, by omega, hc⟩
    · simp only [hc, Bool.false_eq_true, if_false]
      by_cases hb : (i : Int) < (comments.length : Int) - 5
      · simp only [hb, if_true, Bool.false_eq_true, false_iff]
        rintro ⟨j, hj, hlen, hcj⟩
        have : j = i := by omega
        subst this
        exact hc hcj
      · simp only [hb, if_false]
        rw [ih (by omega) (by omega)]
        constructor
        · rintro ⟨j, hj, hlen, hcj⟩
          exact ⟨j, by omega, hlen, hcj⟩
        · rintro ⟨j, hj, hlen, hcj⟩
          have hne : j ≠ i := by
            rintro rfl
            exact hc hcj
          exact ⟨j, by omega, hlen, hcj⟩

/-- What `isReverted` computes: the marker is in the issue body, or the
comments were listed and one of the last SIX of them contains the marker. -/
theorem isReverted_iff (gh : Option (Except String (List Comment))) (issue : Issue) :
    isReverted gh issue = true ↔
      (Contains issue.Body revertMarker = true ∨
        ∃ comments, gh = some (.ok comments) ∧
          ∃ i, i < comments.length ∧ comments.length ≤ i + 6 ∧
            Contains (comments.getD i ⟨0, ""⟩).Body revertMarker = true) := by
  unfold isReverted
  by_cases hb : Contains issue.Body revertMarker = true
  · simp [hb]
  · simp only [hb, Bool.false_eq_true, if_false, false_or]
    match gh with
    | none => simp
    | some (.error e) => simp
    | some (.ok comments) =>
      rw [isRevertedLoop_iff comments comments.length (le_refl _) (by omega)]
      simp

/-- The part of C2 the code keeps: when the comments are listed, the marker
in the issue body or in one of the last five comments makes `isReverted`
answer true. -/
theorem isReverted_of_body_or_last_five (issue : Issue) (comments : List Comment)
    (h : Contains issue.Body revertMarker = true ∨
      ∃ i, i < comments.length ∧ comments.length ≤ i + 5 ∧
        Contains (comments.getD i ⟨0, ""⟩).Body revertMarker = true) :
    isReverted (some (.ok comments)) issue = true := by
  rw [isReverted_iff]
  rcases h with h | ⟨i, hi, hlen, hc⟩
  · exact Or.inl h
  · exact Or.inr ⟨comments, rfl, i, hi, by omega, hc⟩

/-- C2, at the failing input: six comments of which only the oldest, the
sixth from the last, contains the revert marker, and an issue body without
it. The marker is in none of the last five comments, yet `isReverted`
answers true. -/
theorem C2_isReverted_sixth_from_last_is_seen :
    Contains "plain body" revertMarker = false ∧
    (∀ i, 1 ≤ i → i < 6 →
      Contains (([⟨1, "\u21a9\ufe0f Reverting transfer. Moving issue back to **o/r** based on user request."⟩,
        ⟨2, "c2"⟩, ⟨3, "c3"⟩, ⟨4, "c4"⟩, ⟨5, "c5"⟩, ⟨6, "c6"⟩] : List Comment).getD i ⟨0, ""⟩).Body
        revertMarker = false) ∧
    isReverted
      (some (.ok [⟨1, "\u21a9\ufe0f Reverting transfer. Moving issue back to **o/r** based on user request."⟩,
        ⟨2, "c2"⟩, ⟨3, "c3"⟩, ⟨4, "c4"⟩, ⟨5, "c5"⟩, ⟨6, "c6"⟩]))
      ⟨"o", "r", 7, "title", "plain body", "uuid"⟩ = true := by
  refine ⟨by decide, ?_, by decide⟩
  intro i h1 h6
  interval_cases i <;> decide

/-! ### Executor.Transfer -/

/-- The calls `Transfer` makes when the target parses, the target repository
exists and the status read succeeds on an issue already transferred: the two
reads, and success. -/
theorem Transfer_already_transferred (dryRun : Bool) (ans : Answers) (issue : Issue)
    (targetRepo : String) (rule : Option TransferRule) (t : Tracker) (o r : String)
    (hp : ans.ParseRepo targetRepo = .ok (o, r)) (he : ans.RepoExists o r = .ok true)
    (hs : ans.WasAlreadyTransferredErr = none) (ht : t.wasTransferred issue = true) :
    Transfer dryRun ans issue targetRepo rule t =
      (.ok, (t.record (.RepoExists o r)).record
        (.WasAlreadyTransferred issue.Org issue.Repo issue.Number)) := by
  simp [Transfer, hp, he, hs, Tracker.record, Tracker.wasTransferred] at ht ⊢
  intro h
  exact absurd ht h

/-- When `Transfer` returns success with `dryRun` off, the issue counts as
transferred afterwards. -/
theorem Transfer_ok_transferred (ans : Answers) (issue : Issue)
    (targetRepo : String) (rule : Option TransferRule) (t : Tracker)
    (h : (Transfer false ans issue targetRepo rule t).1 = .ok) :
    (Transfer false ans issue targetRepo rule t).2.wasTransferred issue = true := by
  cases h1 : ans.ParseRepo targetRepo with
  | error e => simp [Transfer, h1] at h
  | ok p =>
    obtain ⟨o, r⟩ := p
    cases h2 : ans.RepoExists o r with
    | error e => simp [Transfer, h1, h2] at h
    | ok b =>
      cases b with
      | false => simp [Transfer, h1, h2] at h
      | true =>
        cases h3 : ans.WasAlreadyTransferredErr with
        | some e => simp [Transfer, h1, h2, h3] at h
        | none =>
          by_cases ht : (issue.Org, issue.Repo, issue.Number) ∈ t.transferred
          · simp [Transfer, h1, h2, h3, Tracker.wasTransferred, Tracker.record, ht]
          · cases h4 : formatTransferComment targetRepo rule with
            | none => simp [Transfer, h1, h2, h3, Tracker.wasTransferred, Tracker.record, ht, h4] at h
            | some c =>
              cases h5 : ans.PostCommentErr with
              | some e =>
                simp [Transfer, h1, h2, h3, Tracker.wasTransferred, Tracker.record, ht, h4, h5] at h
              | none =>
                cases h6 : ans.TransferIssueErr with
                | some e =>
                  simp [Transfer, h1, h2, h3, Tracker.wasTransferred, Tracker.record, ht, h4, h5,
                    h6] at h
                | none =>
                  cases h7 : ans.DeleteErr <;>
                    simp [Transfer, h1, h2, h3, Tracker.wasTransferred, Tracker.record, ht, h4, h5,
                      h6, h7]

/-- One call of `Transfer` adds at most one `PostComment` and at most one
`TransferIssue` to the trace. -/
theorem Transfer_counts (dryRun : Bool) (ans : Answers) (issue : Issue)
    (targetRepo : String) (rule : Option TransferRule) (t : Tracker) :
    countPostComment (Transfer dryRun ans issue targetRepo rule t).2.calls
        ≤ countPostComment t.calls + 1 ∧
      countTransferIssue (Transfer dryRun ans issue targetRepo rule t).2.calls
        ≤ countTransferIssue t.calls + 1 := by
  cases h1 : ans.ParseRepo targetRepo with
  | error e => simp [Transfer, h1]
  | ok p =>
    obtain ⟨o, r⟩ := p
    cases h2 : ans.RepoExists o r with
    | error e => simp [Transfer, h1, h2, Tracker.record, countPostComment, countTransferIssue]
    | ok b =>
      cases b with
      | false => simp [Transfer, h1, h2, Tracker.record, countPostComment, countTransferIssue]
      | true =>
        cases h3 : ans.WasAlreadyTransferredErr with
        | some e =>
          simp [Transfer, h1, h2, h3, Tracker.record, countPostComment, countTransferIssue]
        | none =>
          by_cases ht : (issue.Org, issue.Repo, issue.Number) ∈ t.transferred
          · simp [Transfer, h1, h2, h3, Tracker.wasTransferred, Tracker.record, ht,
              countPostComment, countTransferIssue]
          · cases dryRun with
            | true =>
              simp [Transfer, h1, h2, h3, Tracker.wasTransferred, Tracker.record, ht,
                countPostComment, countTransferIssue]
            | false =>
              cases h4 : formatTransferComment targetRepo rule with
              | none =>
                simp [Transfer, h1, h2, h3, Tracker.wasTransferred, Tracker.record, ht, h4,
                  countPostComment, countTransferIssue]
              | some c =>
                cases h5 : ans.PostCommentErr with
                | some e =>
                  simp [Transfer, h1, h2, h3, Tracker.wasTransferred, Tracker.record, ht, h4, h5,
                    countPostComment, countTransferIssue]
                | none =>
                  cases h6 : ans.TransferIssueErr with
                  | some e =>
                    simp [Transfer, h1, h2, h3, Tracker.wasTransferred, Tracker.record, ht, h4,
                      h5, h6, countPostComment, countTransferIssue]
                  | none =>
                    cases h7 : ans.DeleteErr <;>
                      simp [Transfer, h1, h2, h3, Tracker.wasTransferred, Tracker.record, ht, h4,
                        h5, h6, h7, countPostComment, countTransferIssue]

/-- C4, as stated, fails on the code. First pair of calls: the first call
posts its comment and then fails in the privileged transfer, so nothing is
recorded as transferred and the second call posts a second comment and
transfers. Second pair: the first call succeeds, the second cannot read
whether the target exists and returns an error. -/
theorem C4_counterexample :
    (countPostComment
        (Transfer false allFine sampleIssue "o2/r2" (some emptyRule)
          (Transfer false transferFails sampleIssue "o2/r2" (some emptyRule)
            freshTracker).2).2.calls = 2 ∧
      countTransferIssue
        (Transfer false allFine sampleIssue "o2/r2" (some emptyRule)
          (Transfer false transferFails sampleIssue "o2/r2" (some emptyRule)
            freshTracker).2).2.calls = 2) ∧
    (Transfer false allFine sampleIssue "o2/r2" (some emptyRule) freshTracker).1 = .ok ∧
    (Transfer false existsFails sampleIssue "o2/r2" (some emptyRule)
      (Transfer false allFine sampleIssue "o2/r2" (some emptyRule) freshTracker).2).1
      = .error "failed to check target repo: HTTP 502" := by
  decide

/-- C4, amended: over the tracker model in which the already-transferred
check is true once a transfer has been performed, if the first call of
`Transfer` returns success and, in the second call for the same issue and
target, the target parses, the target repository exists and the status read
succeeds, then the second call returns success and makes only those two
reads: no comment, no transfer, no deletion from the similarity index, and
nothing new is recorded as transferred. Over the two calls at most one
comment is posted and at most one transfer is made. -/
theorem C4_second_transfer_is_noop (dryRun : Bool) (ans1 ans2 : Answers) (issue : Issue)
    (targetRepo : String) (rule : Option TransferRule) (t0 : Tracker) (o r : String)
    (h1 : (Transfer dryRun ans1 issue targetRepo rule t0).1 = .ok)
    (hp : ans2.ParseRepo targetRepo = .ok (o, r)) (he : ans2.RepoExists o r = .ok true)
    (hs : ans2.WasAlreadyTransferredErr = none) :
    (Transfer dryRun ans2 issue targetRepo rule
        (Transfer dryRun ans1 issue targetRepo rule t0).2).1 = .ok ∧
    (Transfer dryRun ans2 issue targetRepo rule
        (Transfer dryRun ans1 issue targetRepo rule t0).2).2.calls =
      (Transfer dryRun ans1 issue targetRepo rule t0).2.calls ++
        [.RepoExists o r, .WasAlreadyTransferred issue.Org issue.Repo issue.Number] ∧
    (Transfer dryRun ans2 issue targetRepo rule
        (Transfer dryRun ans1 issue targetRepo rule t0).2).2.transferred =
      (Transfer dryRun ans1 issue targetRepo rule t0).2.transferred ∧
    countPostComment (Transfer dryRun ans2 issue targetRepo rule
        (Transfer dryRun ans1 issue targetRepo rule t0).2).2.calls
      ≤ countPostComment t0.calls + 1 ∧
    countTransferIssue (Transfer dryRun ans2 issue targetRepo rule
        (Transfer dryRun ans1 issue targetRepo rule t0).2).2.calls
      ≤ countTransferIssue t0.calls + 1 ∧
    countVectorDelete (Transfer dryRun ans2 issue targetRepo rule
        (Transfer dryRun ans1 issue targetRepo rule t0).2).2.calls
      = countVectorDelete (Transfer dryRun ans1 issue targetRepo rule t0).2.calls := by
  have hc := Transfer_counts dryRun ans1 issue targetRepo rule t0
  generalize hres : Transfer dryRun ans1 issue targetRepo rule t0 = res at h1 hc ⊢
  obtain ⟨r1, t1⟩ := res
  have key : Transfer dryRun ans2 issue targetRepo rule t1 =
      (.ok, (t1.record (.RepoExists o r)).record
        (.WasAlreadyTransferred issue.Org issue.Repo issue.Number)) := by
    cases dryRun with
    | false =>
      have ht : t1.wasTransferred issue = true := by
        have := Transfer_ok_transferred ans1 issue targetRepo rule t0 (by rw [hres]; exact h1)
        rw [hres] at this
        exact this
      exact Transfer_already_transferred false ans2 issue targetRepo rule t1 o r hp he hs ht
    | true =>
      by_cases ht : (issue.Org, issue.Repo, issue.Number) ∈ t1.transferred <;>
        simp [Transfer, hp, he, hs, Tracker.wasTransferred, Tracker.record, ht]
  simp only [key]
  simp only [Tracker.record, countPostComment, countTransferIssue, countVectorDelete,
    List.append_assoc, List.countP_append] at hc ⊢
  simp only [List.countP_cons, List.countP_nil]
  refine ⟨trivial, by simp, trivial, ?_, ?_, by simp⟩
  · simpa using hc.1
  · simpa using hc.2

/-- C4 amended, at a concrete input: two calls in an environment where every
collaborator call succeeds. -/
theorem C4_second_transfer_is_noop_witness :
    (Transfer false allFine sampleIssue "o2/r2" (some emptyRule)
        (Transfer false allFine sampleIssue "o2/r2" (some emptyRule) freshTracker).2).1 = .ok ∧
    countPostComment (Transfer false allFine sampleIssue "o2/r2" (some emptyRule)
        (Transfer false allFine sampleIssue "o2/r2" (some emptyRule) freshTracker).2).2.calls
      ≤ countPostComment freshTracker.calls + 1 :=
  have h := C4_second_transfer_is_noop false allFine allFine sampleIssue "o2/r2"
    (some emptyRule) freshTracker "o2" "r2" (by decide) rfl rfl rfl
  ⟨h.1, h.2.2.2.1⟩

/-- A rule with no predicate field set is described as "routing rules". -/
theorem formatMatchDescription_no_predicate (rule : TransferRule)
    (hl : rule.Match.Labels = []) (ht : rule.Match.TitleContains = [])
    (hb : rule.Match.BodyContains = []) (ha : rule.Match.Author = "") :
    formatMatchDescription (some rule) = some "routing rules" := by
  simp [formatMatchDescription, hl, ht, hb, ha]

/-- C6, what the code does with a nil rule: when `Transfer` reaches the
notification step (target parsed, target repository exists, status read
succeeded, issue not yet transferred, `dryRun` off) and the rule is nil, the
call panics while building the comment; nothing is posted, the trace holds
the two reads only. -/
theorem C6_nil_rule_panics (ans : Answers) (issue : Issue) (targetRepo : String)
    (t : Tracker) (o r : String)
    (hp : ans.ParseRepo targetRepo = .ok (o, r)) (he : ans.RepoExists o r = .ok true)
    (hs : ans.WasAlreadyTransferredErr = none) (ht : t.wasTransferred issue = false) :
    formatMatchDescription none = none ∧
    Transfer false ans issue targetRepo none t =
      (.panic, (t.record (.RepoExists o r)).record
        (.WasAlreadyTransferred issue.Org issue.Repo issue.Number)) := by
  refine ⟨rfl, ?_⟩
  simp only [Tracker.wasTransferred, decide_eq_false_iff_not] at ht
  simp [Transfer, hp, he, hs, Tracker.record, Tracker.wasTransferred, ht, formatTransferComment,
    formatMatchDescription]

/-- C6 at the failing input: a transfer of `o/r#7` to `o2/r2` with a nil
rule, every collaborator answering without error. -/
theorem C6_nil_rule_panics_witness :
    Transfer false allFine sampleIssue "o2/r2" none freshTracker =
      (.panic, ⟨[], [.RepoExists "o2" "r2", .WasAlreadyTransferred "o" "r" 7], []⟩) :=
  (C6_nil_rule_panics allFine sampleIssue "o2/r2" freshTracker "o2" "r2" rfl rfl rfl
    (by decide)).2

/-- C10: when the target parses, the target repository exists, the status
read succeeds on an issue not yet transferred, `dryRun` is off, the comment
is built and posted and the privileged transfer succeeds, `Transfer` returns
success whatever the similarity-index deletion answers. A failure of the
target parse, of the existence check (an error, or a repository that does not
exist), of the status read, or of the privileged transfer once it is reached,
makes `Transfer` return an error. -/
theorem C10_transfer_failure_semantics (dryRun : Bool) (ans : Answers) (issue : Issue)
    (targetRepo : String) (rule : Option TransferRule) (t : Tracker) :
    (∀ o r comment, ans.ParseRepo targetRepo = .ok (o, r) → ans.RepoExists o r = .ok true →
      ans.WasAlreadyTransferredErr = none → t.wasTransferred issue = false → dryRun = false →
      formatTransferComment targetRepo rule = some comment → ans.PostCommentErr = none →
      ans.TransferIssueErr = none →
        (Transfer dryRun ans issue targetRepo rule t).1 = .ok ∧
        (Transfer dryRun ans issue targetRepo rule t).2.calls = t.calls ++
          [.RepoExists o r, .WasAlreadyTransferred issue.Org issue.Repo issue.Number,
           .PostComment issue.Org issue.Repo issue.Number comment,
           .TransferIssue issue.Org issue.Repo issue.Number targetRepo,
           .VectorDelete (ans.CollectionName issue.Org) issue.UUID]) ∧
    (∀ e, ans.ParseRepo targetRepo = .error e →
      (Transfer dryRun ans issue targetRepo rule t).1 = .error e) ∧
    (∀ o r e, ans.ParseRepo targetRepo = .ok (o, r) → ans.RepoExists o r = .error e →
      (Transfer dryRun ans issue targetRepo rule t).1
        = .error ("failed to check target repo: " ++ e)) ∧
    (∀ o r, ans.ParseRepo targetRepo = .ok (o, r) → ans.RepoExists o r = .ok false →
      (Transfer dryRun ans issue targetRepo rule t).1
        = .error ("target repo " ++ targetRepo ++ " does not exist")) ∧
    (∀ o r e, ans.ParseRepo targetRepo = .ok (o, r) → ans.RepoExists o r = .ok true →
      ans.WasAlreadyTransferredErr = some e →
      (Transfer dryRun ans issue targetRepo rule t).1
        = .error ("failed to check transfer status: " ++ e)) ∧
    (∀ o r comment e, ans.ParseRepo targetRepo = .ok (o, r) → ans.RepoExists o r = .ok true →
      ans.WasAlreadyTransferredErr = none → t.wasTransferred issue = false → dryRun = false →
      formatTransferComment targetRepo rule = some comment → ans.PostCommentErr = none →
      ans.TransferIssueErr = some e →
        (Transfer dryRun ans issue targetRepo rule t).1
          = .error ("failed to transfer issue: " ++ e)) := by
  refine ⟨?_, ?_, ?_, ?_, ?_, ?_⟩
  · intro o r comment hp he hs ht hd hc hpc hti
    simp only [Tracker.wasTransferred, decide_eq_false_iff_not] at ht
    subst hd
    cases hde : ans.DeleteErr <;>
      simp [Transfer, hp, he, hs, Tracker.record, Tracker.wasTransferred, ht, hc, hpc, hti, hde]
  · intro e hp
    simp [Transfer, hp]
  · intro o r e hp he
    simp [Transfer, hp, he]
  · intro o r hp he
    simp [Transfer, hp, he]
  · intro o r e hp he hs
    simp [Transfer, hp, he, hs]
  · intro o r comment e hp he hs ht hd hc hpc hti
    simp only [Tracker.wasTransferred, decide_eq_false_iff_not] at ht
    subst hd
    simp [Transfer, hp, he, hs, Tracker.record, Tracker.wasTransferred, ht, hc, hpc, hti]

/-- C10 at concrete inputs: a transfer whose index deletion fails still
returns success, and a transfer whose privileged step fails returns an
error. -/
theorem C10_transfer_failure_semantics_witness :
    (Transfer false { allFine with DeleteErr := some "index down" } sampleIssue "o2/r2"
      (some emptyRule) freshTracker).1 = .ok ∧
    (Transfer false transferFails sampleIssue "o2/r2" (some emptyRule) freshTracker).1
      = .error ("failed to transfer issue: " ++ "HTTP 502") :=
  ⟨((C10_transfer_failure_semantics false { allFine with DeleteErr := some "index down" }
      sampleIssue "o2/r2" (some emptyRule) freshTracker).1 "o2" "r2" _ rfl rfl rfl (by decide)
      rfl rfl rfl rfl).1,
   (C10_transfer_failure_semantics false transferFails sampleIssue "o2/r2" (some emptyRule)
      freshTracker).2.2.2.2.2 "o2" "r2" _ "HTTP 502" rfl rfl rfl (by decide) rfl rfl rfl rfl⟩

/-! ### Manager.Cancel -/

/-- C7: `Cancel` removes exactly the label "pending-transfer" from the
action's org/repo/issue when the type is transfer, exactly "pending-close"
when the type is close, returning what `RemoveLabel` returns; for every other
type it returns an error and makes no tracker call. -/
theorem C7_cancel_label (removeLabel : Option String) (action : PendingAction) :
    (action.Type_ = "transfer" →
      Cancel removeLabel action =
        (match removeLabel with
          | none => .ok
          | some e => .error e,
         [.RemoveLabel action.Org action.Repo action.IssueNumber "pending-transfer"])) ∧
    (action.Type_ = "close" →
      Cancel removeLabel action =
        (match removeLabel with
          | none => .ok
          | some e => .error e,
         [.RemoveLabel action.Org action.Repo action.IssueNumber "pending-close"])) ∧
    (action.Type_ ≠ "transfer" → action.Type_ ≠ "close" →
      Cancel removeLabel action = (.error ("unknown action type: " ++ action.Type_), [])) := by
  refine ⟨?_, ?_, ?_⟩
  · intro h
    simp [Cancel, h, ActionTypeTransfer, LabelPendingTransfer]
  · intro h
    simp [Cancel, h, ActionTypeTransfer, ActionTypeClose, LabelPendingClose]
  · intro h1 h2
    simp [Cancel, h1, h2, ActionTypeTransfer, ActionTypeClose]

/-- C7 at concrete inputs: a transfer action, a close action and an action
of unknown type "merge". -/
theorem C7_cancel_label_witness :
    Cancel none ⟨"transfer", "o", "r", 7, "o2/r2", 11, ⟨0⟩, ⟨1⟩, []⟩
      = (.ok, [.RemoveLabel "o" "r" 7 "pending-transfer"]) ∧
    Cancel none ⟨"close", "o", "r", 7, "url", 11, ⟨0⟩, ⟨1⟩, []⟩
      = (.ok, [.RemoveLabel "o" "r" 7 "pending-close"]) ∧
    Cancel none ⟨"merge", "o", "r", 7, "url", 11, ⟨0⟩, ⟨1⟩, []⟩
      = (.error ("unknown action type: " ++ "merge"), []) :=
  ⟨(C7_cancel_label none ⟨"transfer", "o", "r", 7, "o2/r2", 11, ⟨0⟩, ⟨1⟩, []⟩).1 rfl,
   (C7_cancel_label none ⟨"close", "o", "r", 7, "url", 11, ⟨0⟩, ⟨1⟩, []⟩).2.1 rfl,
   (C7_cancel_label none ⟨"merge", "o", "r", 7, "url", 11, ⟨0⟩, ⟨1⟩, []⟩).2.2
     (by decide) (by decide)⟩

/-! ### TransferCheck.Run -/

/-- The router step leaves `target` as it was, or replaces it by the
router's target when the confidence is at least 0.8 and the target differs
from the current repository after lower-casing. -/
theorem aiTarget_cases (env : RunEnv) (issue : Issue) (target : String) :
    aiTarget env issue target = target ∨
      ∃ result, env.Route = .ok (some result) ∧ aiTarget env issue target = result.TargetRepo ∧
        (4 / 5 : ℚ) ≤ result.Confidence ∧
        env.ToLower result.TargetRepo ≠ env.ToLower (issue.Org ++ "/" ++ issue.Repo) := by
  unfold aiTarget
  cases hr : env.Route with
  | error e => exact Or.inl rfl
  | ok res =>
    cases res with
    | none => exact Or.inl rfl
    | some result =>
      by_cases hc : (4 / 5 : ℚ) ≤ result.Confidence
      · by_cases hl : env.ToLower result.TargetRepo = env.ToLower (issue.Org ++ "/" ++ issue.Repo)
        · left; simp [hc, hl]
        · right; exact ⟨result, rfl, by simp [hc, hl], hc, hl⟩
      · left; simp [hc]

/-- C3: when `Run` calls the router and ends with a target, that target is
the one of the routing result, the result's confidence is at least 0.8 and
its target differs, after lower-casing, from the issue's "org/repo"; so the
target written to the context by the router path is never the current
repository. When the routing result names the current repository (up to
case), or has a confidence below 0.8, the context is left as it was. -/
theorem C3_ai_target_gate (env : RunEnv) (ctx : Context) :
    ((Run env ctx).routed = true → (Run env ctx).target ≠ "" →
      ∃ result, env.Route = .ok (some result) ∧
        (Run env ctx).target = result.TargetRepo ∧
        (Run env ctx).ctx.TransferTarget = result.TargetRepo ∧
        (4 / 5 : ℚ) ≤ result.Confidence ∧
        env.ToLower result.TargetRepo ≠ env.ToLower (ctx.Issue.Org ++ "/" ++ ctx.Issue.Repo) ∧
        env.ToLower (Run env ctx).ctx.TransferTarget
          ≠ env.ToLower (ctx.Issue.Org ++ "/" ++ ctx.Issue.Repo)) ∧
    (∀ result, (Run env ctx).routed = true → env.Route = .ok (some result) →
      (result.Confidence < 4 / 5 ∨
        env.ToLower result.TargetRepo = env.ToLower (ctx.Issue.Org ++ "/" ++ ctx.Issue.Repo)) →
      (Run env ctx).target = "" ∧ (Run env ctx).ctx = ctx) := by
  unfold Run
  cases hrc : env.repoConfig with
  | none => simp
  | some repoConfig =>
    simp only []
    by_cases hrev : isReverted env.gh ctx.Issue = true
    · simp [hrev]
    · simp only [hrev, Bool.false_eq_true, if_false]
      generalize hrt : (if repoConfig.TransferRules.length > 0
        then env.Match repoConfig.TransferRules ctx.Issue else "") = rt
      by_cases hrouted : (decide (rt = "") && env.RouterEnabled) = true
      · simp only [hrouted, if_true]
        have hrt0 : rt = "" := by
          simp only [Bool.and_eq_true, decide_eq_true_eq] at hrouted
          exact hrouted.1
        subst hrt0
        constructor
        · intro _ hne
          rcases aiTarget_cases env ctx.Issue "" with h | ⟨result, hr, ht, hc, hl⟩
          · by_cases h0 : aiTarget env ctx.Issue "" = ""
            · simp [h0] at hne
            · exact absurd h h0
          · refine ⟨result, hr, ?_, ?_, hc, hl, ?_⟩
            · by_cases h0 : aiTarget env ctx.Issue "" = ""
              · simp [h0] at hne
              · simp only [h0, if_false]
                split <;> exact ht
            · by_cases h0 : aiTarget env ctx.Issue "" = ""
              · simp [h0] at hne
              · simp only [h0, if_false]
                split <;> exact ht
            · by_cases h0 : aiTarget env ctx.Issue "" = ""
              · simp [h0] at hne
              · simp only [h0, if_false]
                split <;> (simp only [ht]; exact hl)
        · intro result _ hr hbad
          have h0 : aiTarget env ctx.Issue "" = "" := by
            unfold aiTarget
            rw [hr]
            rcases hbad with hlow | hsame
            · simp [not_le.mpr hlow]
            · simp [hsame]
          simp [h0]
      · simp only [hrouted]
        constructor
        · intro hr
          exfalso
          split_ifs at hr
        · intro result hr
          exfalso
          split_ifs at hr

/-- C3 at concrete inputs: a confident routing result for another repository
is adopted, and a confident routing result naming the current repository in
another letter case leaves the context untouched. -/
theorem C3_ai_target_gate_witness :
    (∃ result, (routerEnv ⟨"o3/r3", 19 / 20, "backend"⟩).Route = .ok (some result) ∧
        (Run (routerEnv ⟨"o3/r3", 19 / 20, "backend"⟩) ⟨sampleIssue, "", none⟩).target
          = result.TargetRepo ∧
        (Run (routerEnv ⟨"o3/r3", 19 / 20, "backend"⟩) ⟨sampleIssue, "", none⟩).ctx.TransferTarget
          = result.TargetRepo ∧
        (4 / 5 : ℚ) ≤ result.Confidence ∧
        String.toLower result.TargetRepo ≠ String.toLower ("o" ++ "/" ++ "r") ∧
        String.toLower
          (Run (routerEnv ⟨"o3/r3", 19 / 20, "backend"⟩) ⟨sampleIssue, "", none⟩).ctx.TransferTarget
          ≠ String.toLower ("o" ++ "/" ++ "r")) ∧
    ((Run (routerEnv ⟨"O/R", 1, "same"⟩) ⟨sampleIssue, "", none⟩).target = "" ∧
      (Run (routerEnv ⟨"O/R", 1, "same"⟩) ⟨sampleIssue, "", none⟩).ctx = ⟨sampleIssue, "", none⟩) :=
  ⟨(C3_ai_target_gate (routerEnv ⟨"o3/r3", 19 / 20, "backend"⟩) ⟨sampleIssue, "", none⟩).1
      (by with_unfolding_all decide) (by with_unfolding_all decide),
   (C3_ai_target_gate (routerEnv ⟨"O/R", 1, "same"⟩) ⟨sampleIssue, "", none⟩).2
      ⟨"O/R", 1, "same"⟩ (by with_unfolding_all decide) rfl
      (Or.inr (by with_unfolding_all decide))⟩

/-! ### The revert comment and the loop guard -/

/-- A character list contains each of its prefixes. -/
theorem containsChars_append (a b : List Char) : containsChars (a ++ b) a = true := by
  cases h : a ++ b with
  | nil =>
    have : a = [] := (List.append_eq_nil.mp h).1
    simp [containsChars, this]
  | cons c cs =>
    have hp : a.isPrefixOf (c :: cs) = true := by
      rw [← h]
      exact List.isPrefixOf_iff_prefix.mpr (List.prefix_append a b)
    simp [containsChars, hp]

/-- The comment body built by `Revert` contains the marker of the loop guard,
whatever the source org and repo are. -/
theorem revertMsg_contains_marker (action : RevertAction) :
    Contains (revertMsg action) revertMarker = true := by
  have h : (revertMsg action).data = revertMarker.data ++
      (". Moving issue back to **" ++
        (action.SourceOrg ++ "/" ++ action.SourceRepo) ++ "** based on user request.").data := by
    simp [revertMsg, revertMarker, String.data_append]
  unfold Contains
  rw [h]
  exact containsChars_append _ _

/-- C9, amended: for every revert action, the comment `Revert` posts is
`revertMsg`, which contains the exact marker tested by `isReverted`; so when
the step has a tracker client and `ListComments` succeeds, an issue whose
last five comments include that revert comment makes `isReverted` answer
true and `Run` resolve no target: it does not call the router and leaves the
context as it was. Without a tracker client, or when the listing fails,
`isReverted` reads no comment: its answer is that of the test of the issue
body alone. -/
theorem C9_revert_comment_stops_run (action : RevertAction) (issue : Issue) (t : Tracker)
    (e : String)
    (executeTransfer : Issue → String → Option TransferRule → Tracker → Ret × Tracker)
    (env : RunEnv) (ctx : Context) (comments : List Comment) (i : Nat)
    (hgh : env.gh = some (.ok comments))
    (hi : i < comments.length) (hlast : comments.length ≤ i + 5)
    (hbody : (comments.getD i ⟨0, ""⟩).Body = revertMsg action) :
    (Revert (some e) executeTransfer issue action t).2.calls
      = t.calls ++ [.PostComment issue.Org issue.Repo issue.Number (revertMsg action)] ∧
    Revert none executeTransfer issue action t
      = (match executeTransfer issue (action.SourceOrg ++ "/" ++ action.SourceRepo) none
          (t.record (.PostComment issue.Org issue.Repo issue.Number (revertMsg action))) with
        | (.error e, t) => (.error ("failed to execute revert transfer: " ++ e), t)
        | (r, t) => (r, t)) ∧
    Contains (revertMsg action) revertMarker = true ∧
    isReverted env.gh ctx.Issue = true ∧
    (Run env ctx).target = "" ∧ (Run env ctx).routed = false ∧ (Run env ctx).ctx = ctx ∧
    isReverted none ctx.Issue = Contains ctx.Issue.Body revertMarker ∧
    (∀ e2, isReverted (some (.error e2)) ctx.Issue = Contains ctx.Issue.Body revertMarker) := by
  have hrev : isReverted env.gh ctx.Issue = true := by
    rw [hgh]
    apply isReverted_of_body_or_last_five
    right
    exact ⟨i, hi, hlast, by rw [hbody]; exact revertMsg_contains_marker action⟩
  refine ⟨rfl, rfl, revertMsg_contains_marker action, hrev, ?_, ?_, ?_, ?_, ?_⟩
  · unfold Run; cases env.repoConfig <;> simp [hrev]
  · unfold Run; cases env.repoConfig <;> simp [hrev]
  · unfold Run; cases env.repoConfig <;> simp [hrev]
  · simp [isReverted]
  · intro e2
    simp [isReverted]

/-- C9 amended, at a concrete input: the revert comment for `src/home` is the fifth
from the last of six comments, and the environment has a rule that would
otherwise match and a router that would otherwise answer. -/
theorem C9_revert_comment_stops_run_witness :
    isReverted (eagerEnv [⟨1, "first"⟩, ⟨2, revertMsg ⟨"src", "home", 2⟩⟩, ⟨3, "c3"⟩, ⟨4, "c4"⟩,
        ⟨5, "c5"⟩, ⟨6, "c6"⟩]).gh sampleIssue = true ∧
    (Run (eagerEnv [⟨1, "first"⟩, ⟨2, revertMsg ⟨"src", "home", 2⟩⟩, ⟨3, "c3"⟩, ⟨4, "c4"⟩,
        ⟨5, "c5"⟩, ⟨6, "c6"⟩]) ⟨sampleIssue, "", none⟩).target = "" :=
  have h := C9_revert_comment_stops_run ⟨"src", "home", 2⟩ sampleIssue freshTracker "HTTP 502"
    (fun _ _ _ t => (.ok, t))
    (eagerEnv [⟨1, "first"⟩, ⟨2, revertMsg ⟨"src", "home", 2⟩⟩, ⟨3, "c3"⟩, ⟨4, "c4"⟩,
        ⟨5, "c5"⟩, ⟨6, "c6"⟩])
    ⟨sampleIssue, "", none⟩ _ 1 rfl (by decide) (by decide) rfl
  ⟨h.2.2.2.1, h.2.2.2.2.1⟩

/-- C9, as stated, fails on the code: `isReverted` sees the comments of the
issue only when the step has a tracker client and `ListComments` succeeds.
When the listing fails, or there is no client, the revert comment among the
last five comments is never read: `isReverted` answers false and `Run`
resolves the target `o2/r2` of the matching rule. -/
theorem C9_counterexample :
    isReverted listingFailsEnv.gh sampleIssue = false ∧
    (Run listingFailsEnv ⟨sampleIssue, "", none⟩).target = "o2/r2" ∧
    (Run listingFailsEnv ⟨sampleIssue, "", none⟩).ctx.TransferTarget = "o2/r2" ∧
    isReverted noClientEnv.gh sampleIssue = false ∧
    (Run noClientEnv ⟨sampleIssue, "", none⟩).target = "o2/r2" ∧
    (Run noClientEnv ⟨sampleIssue, "", none⟩).ctx.TransferTarget = "o2/r2" := by
  refine ⟨rfl, ?_, ?_, rfl, ?_, ?_⟩ <;> with_unfolding_all decide

/-! ### The marker around the JSON text -/

theorem Plain_nil : Plain [] := fun _ h => absurd h (List.not_mem_nil _)

theorem Plain_cons_iff (c : Char) (l : List Char) :
    Plain (c :: l) ↔ (c ≠ '>' ∧ c ≠ '\n') ∧ Plain l := by
  simp [Plain]

theorem Plain_append_iff (l m : List Char) : Plain (l ++ m) ↔ Plain l ∧ Plain m := by
  simp only [Plain, List.mem_append]
  constructor
  · intro h
    exact ⟨fun c hc => h c (Or.inl hc), fun c hc => h c (Or.inr hc)⟩
  · rintro ⟨h1, h2⟩ c (hc | hc)
    · exact h1 c hc
    · exact h2 c hc

theorem Plain_of_all (l : List Char)
    (h : (l.all fun c => c != '>' && c != '\n') = true) : Plain l := by
  intro c hc
  have := List.all_eq_true.mp h c hc
  simpa using this

/-- In front of the suffix of the pattern, a non-empty text without `>` does
not start with that suffix. -/
theorem pendingSuffix_not_prefix (body : List Char) (hne : body ≠ []) (hp : Plain body) :
    pendingSuffix.isPrefixOf (body ++ pendingSuffix) = false := by
  have hgt : ∀ c ∈ body, c ≠ '>' := fun c hc => (hp c hc).1
  rcases body with _ | ⟨c1, _ | ⟨c2, _ | ⟨c3, _ | ⟨c4, _ | ⟨c5, tl⟩⟩⟩⟩⟩
  · exact absurd rfl hne
  · simp [pendingSuffix, List.isPrefixOf]
  · simp [pendingSuffix, List.isPrefixOf]
  · simp [pendingSuffix, List.isPrefixOf]
  · simp [pendingSuffix, List.isPrefixOf]
  · have h5 : c5 ≠ '>' := hgt c5 (by simp)
    simp [pendingSuffix, List.isPrefixOf]
    intro _ _ _ _ h
    exact absurd h.symm h5

/-- The lazy body of the pattern, on a text without `>` and line feed
followed by the suffix, is that text. -/
theorem lazyBody_plain : ∀ (body rest : List Char), Plain body →
    lazyBody (body ++ pendingSuffix ++ rest) = some body := by
  intro body
  induction body with
  | nil =>
    intro rest _
    simp [lazyBody, pendingSuffix, List.isPrefixOf]
  | cons c cs ih =>
    intro rest hp
    have hcs : Plain cs := fun x hx => hp x (List.mem_cons_of_mem _ hx)
    have hc := hp c (List.mem_cons_self _ _)
    have hnp : pendingSuffix.isPrefixOf (c :: cs ++ pendingSuffix ++ rest) = false := by
      have h1 := pendingSuffix_not_prefix (c :: cs) (by simp) hp
      cases h2 : pendingSuffix.isPrefixOf (c :: cs ++ pendingSuffix ++ rest) with
      | false => rfl
      | true =>
        have h3 := List.isPrefixOf_iff_prefix.mp h2
        have h4 : pendingSuffix <+: (c :: cs ++ pendingSuffix) := by
          have h5 : (c :: cs ++ pendingSuffix) <+: (c :: cs ++ pendingSuffix ++ rest) :=
            List.prefix_append _ _
          exact List.prefix_of_prefix_length_le h3 h5 (by simp; omega)
        rw [List.isPrefixOf_iff_prefix.mpr h4] at h1
        exact absurd h1 (by decide)
    have hstep : lazyBody (c :: (cs ++ pendingSuffix ++ rest))
        = match lazyBody (cs ++ pendingSuffix ++ rest) with
          | none => none
          | some m => some (c :: m) := by
      simp only [List.cons_append, List.append_assoc] at hnp
      rw [lazyBody]
      simp only [List.append_assoc, hnp, Bool.false_eq_true, if_false, hc.2]
    simp only [List.cons_append]
    rw [hstep, ih rest hcs]

/-- The pattern, on the marker around a text without `>` and line feed,
captures that text with its braces. -/
theorem pendingMatch_marker (body : List Char) (hp : Plain body) :
    pendingMatch (pendingPrefix ++ body ++ pendingSuffix)
      = some ('\x7b' :: body ++ ['\x7d']) := by
  have h1 : ∃ c cs, pendingPrefix = c :: cs := ⟨_, _, rfl⟩
  obtain ⟨c, cs, hcs⟩ := h1
  have hpre : pendingPrefix.isPrefixOf (pendingPrefix ++ body ++ pendingSuffix) = true := by
    rw [List.append_assoc]
    exact List.isPrefixOf_iff_prefix.mpr (List.prefix_append _ _)
  have hdrop : (pendingPrefix ++ body ++ pendingSuffix).drop pendingPrefix.length
      = body ++ pendingSuffix ++ [] := by
    rw [List.append_assoc, List.drop_left]
    simp
  have hunf : pendingMatch (c :: (cs ++ body ++ pendingSuffix))
      = if pendingPrefix.isPrefixOf (c :: (cs ++ body ++ pendingSuffix)) then
          match lazyBody ((c :: (cs ++ body ++ pendingSuffix)).drop pendingPrefix.length) with
          | some m => some ('\x7b' :: m ++ ['\x7d'])
          | none => pendingMatch (cs ++ body ++ pendingSuffix)
        else pendingMatch (cs ++ body ++ pendingSuffix) := by
    rw [pendingMatch]
  have e : pendingPrefix ++ body ++ pendingSuffix = c :: (cs ++ body ++ pendingSuffix) := by
    rw [hcs]; simp
  rw [e] at hpre hdrop ⊢
  rw [hunf, hpre, hdrop, lazyBody_plain body [] hp]
  simp

/-! ### FormatPendingActionMetadata and ParsePendingActionMetadata -/

/-- The marker written around an object text of `json.Marshal`. -/
theorem Format_data (js : JsonEnv) (a : PendingAction) (body : List Char)
    (h : js.Marshal a = .ok (String.mk ('\x7b' :: body ++ ['\x7d']))) :
    (FormatPendingActionMetadata js a).data = pendingPrefix ++ body ++ pendingSuffix := by
  simp only [FormatPendingActionMetadata, h, String.data_append]
  simp [pendingPrefix, pendingSuffix]

/-- The pattern, on the formatted metadata of an action for which
`json.Marshal` wrote an object text without `>` and line feed, captures that
whole text. -/
theorem pendingMatch_Format (js : JsonEnv) (a : PendingAction) (body : List Char)
    (h : js.Marshal a = .ok (String.mk ('\x7b' :: body ++ ['\x7d']))) (hp : Plain body) :
    pendingMatch (FormatPendingActionMetadata js a).data
      = some ('\x7b' :: body ++ ['\x7d']) := by
  rw [Format_data js a body h, pendingMatch_marker _ hp]

/-- A comment whose body is the formatted metadata of an action of the
expected type and issue number, which `json.Unmarshal` decodes back,
contributes that action, with org and repo taken from the issue. -/
theorem candidateAction_Format (js : JsonEnv) (issue : Issue) (actionType : ActionType)
    (id : Int) (a : PendingAction) (body : List Char)
    (h : js.Marshal a = .ok (String.mk ('\x7b' :: body ++ ['\x7d']))) (hp : Plain body)
    (hu : js.Unmarshal (String.mk ('\x7b' :: body ++ ['\x7d'])) = .ok a)
    (ht : a.Type_ = actionType) (hn : a.IssueNumber = issue.Number) :
    candidateAction js issue actionType ⟨id, FormatPendingActionMetadata js a⟩
      = some { a with Org := issue.Org, Repo := issue.Repo } := by
  simp only [candidateAction, ParsePendingActionMetadata, pendingMatch_Format js a body h hp,
    hu, ht, hn, and_self, if_true]

set_option maxRecDepth 8000 in
/-- The sample text for `sampleAction` has no `>` and no line feed. -/
theorem sampleBody_plain : Plain sampleBody := Plain_of_all _ rfl

set_option maxRecDepth 8000 in
/-- The sample text for `laterAction` has no `>` and no line feed. -/
theorem laterBody_plain : Plain laterBody := Plain_of_all _ rfl

set_option maxRecDepth 8000 in
/-- The sample decoder reads the sample text for `sampleAction` back. -/
theorem sampleJson_Unmarshal_sample :
    sampleJson.Unmarshal (String.mk ('\x7b' :: sampleBody ++ ['\x7d'])) = .ok sampleAction := rfl

set_option maxRecDepth 8000 in
/-- The sample decoder reads the sample text for `laterAction` back. -/
theorem sampleJson_Unmarshal_later :
    sampleJson.Unmarshal (String.mk ('\x7b' :: laterBody ++ ['\x7d'])) = .ok laterAction := rfl

/-- The loop of `extractPendingAction` visits a comment by computing its
candidate action. -/
theorem extractLoop_cons (js : JsonEnv) (issue : Issue) (actionType : ActionType)
    (c : Comment) (rest : List Comment) :
    extractLoop js issue actionType (c :: rest) =
      match candidateAction js issue actionType c with
      | some a => .ok a
      | none => extractLoop js issue actionType rest := by
  simp only [extractLoop, candidateAction, ParsePendingActionMetadata]
  cases h1 : pendingMatch c.Body.data with
  | none => rfl
  | some payload =>
    simp only []
    cases h2 : js.Unmarshal (String.mk payload) with
    | error e => rfl
    | ok action =>
      simp only []
      split_ifs <;> rfl

/-- C5, as stated, fails on the code: of two comments, oldest first, that
both carry a parseable marker of type transfer for issue 7, the action
returned is the one of the older comment, not of the most recent one. -/
theorem C5_counterexample :
    candidateAction sampleJson sampleIssue "transfer"
        ⟨1, FormatPendingActionMetadata sampleJson sampleAction⟩ = some sampleAction ∧
    candidateAction sampleJson sampleIssue "transfer"
        ⟨2, FormatPendingActionMetadata sampleJson laterAction⟩ = some laterAction ∧
    extractPendingAction sampleJson
      (.ok [⟨1, FormatPendingActionMetadata sampleJson sampleAction⟩,
            ⟨2, FormatPendingActionMetadata sampleJson laterAction⟩]) sampleIssue "transfer"
      = .ok sampleAction ∧
    sampleAction ≠ laterAction := by
  have h1 := candidateAction_Format sampleJson sampleIssue "transfer" 1 sampleAction sampleBody
    rfl sampleBody_plain sampleJson_Unmarshal_sample rfl rfl
  have h2 := candidateAction_Format sampleJson sampleIssue "transfer" 2 laterAction laterBody
    rfl laterBody_plain sampleJson_Unmarshal_later rfl rfl
  refine ⟨h1, h2, ?_, by decide⟩
  simp only [extractPendingAction, extractLoop_cons, h1]
  rfl

/-- C5, amended: `extractPendingAction` scans the comments in the order of
the list returned by the tracker, oldest first: the action returned is the
one of the first comment in that order that carries a parseable marker whose
type and issue number match, with org and repo taken from the issue;
comments whose marker is absent, does not parse, or has another type or
issue number are passed over; when there is no such comment the result is
the error "pending action not found", and when the listing fails its error
is returned. -/
theorem C5_extract_first_match (js : JsonEnv) (issue : Issue) (actionType : ActionType)
    (comments : List Comment) :
    (∀ pre c post a, comments = pre ++ c :: post →
      (∀ x ∈ pre, candidateAction js issue actionType x = none) →
      candidateAction js issue actionType c = some a →
      extractPendingAction js (.ok comments) issue actionType = .ok a) ∧
    ((∀ x ∈ comments, candidateAction js issue actionType x = none) →
      extractPendingAction js (.ok comments) issue actionType
        = .error "pending action not found") ∧
    (∀ e, extractPendingAction js (.error e) issue actionType = .error e) := by
  refine ⟨?_, ?_, fun e => rfl⟩
  · intro pre c post a hc hpre hcand
    subst hc
    simp only [extractPendingAction]
    induction pre with
    | nil => simp only [List.nil_append, extractLoop_cons, hcand]
    | cons p ps ih =>
      have hp : candidateAction js issue actionType p = none := hpre p (List.mem_cons_self _ _)
      simp only [List.cons_append, extractLoop_cons, hp]
      exact ih (fun x hx => hpre x (List.mem_cons_of_mem _ hx))
  · intro hall
    simp only [extractPendingAction]
    induction comments with
    | nil => rfl
    | cons p ps ih =>
      have hp : candidateAction js issue actionType p = none := hall p (List.mem_cons_self _ _)
      simp only [extractLoop_cons, hp]
      exact ih (fun x hx => hall x (List.mem_cons_of_mem _ hx))

/-- C5 amended, at a concrete input: a comment without marker, a comment
whose marker is for issue 8, then two comments with matching markers, the
first of them written by hand with white space in the payload; the older of
the two is returned, with org and repo of the issue. -/
theorem C5_extract_first_match_witness :
    extractPendingAction sampleJson
      (.ok [⟨0, "no marker here"⟩,
            ⟨1, "<!-- simili-pending-action: " ++ otherIssueText ++ " -->"⟩,
            ⟨2, "note <!-- simili-pending-action: " ++ spacedText ++ " --> end"⟩,
            ⟨3, FormatPendingActionMetadata sampleJson laterAction⟩]) sampleIssue "transfer"
      = .ok { spacedAction with Org := "o", Repo := "r" } :=
  (C5_extract_first_match sampleJson sampleIssue "transfer"
    [⟨0, "no marker here"⟩,
     ⟨1, "<!-- simili-pending-action: " ++ otherIssueText ++ " -->"⟩,
     ⟨2, "note <!-- simili-pending-action: " ++ spacedText ++ " --> end"⟩,
     ⟨3, FormatPendingActionMetadata sampleJson laterAction⟩]).1
    [⟨0, "no marker here"⟩, ⟨1, "<!-- simili-pending-action: " ++ otherIssueText ++ " -->"⟩]
    ⟨2, "note <!-- simili-pending-action: " ++ spacedText ++ " --> end"⟩
    [⟨3, FormatPendingActionMetadata sampleJson laterAction⟩]
    { spacedAction with Org := "o", Repo := "r" } rfl
    (by
      intro x hx
      rcases List.mem_cons.mp hx with h | h
      · rw [h]; rfl
      · rw [List.mem_singleton.mp h]; rfl)
    rfl

/-! ### RevertManager.CheckForRevert -/

/-- The loop of `CheckForRevert` visits a comment by computing its verdict,
and goes on to the next comment when there is none. -/
theorem checkLoop_cons (env : RevertEnv) (issue : Issue) (c : Comment) (rest : List Comment) :
    (checkLoop env issue (c :: rest)).1 =
      match revertVerdict env c with
      | some a => some a
      | none => (checkLoop env issue rest).1 := by
  simp only [checkLoop, revertVerdict]
  cases revertMatch c.Body with
  | none => rfl
  | some payload =>
    simp only []
    cases env.UnmarshalSource payload with
    | error e => rfl
    | ok metadata =>
      simp only []
      cases HasReaction (env.ListCommentReactions c.ID) env.CancelReaction with
      | error e => rfl
      | ok b => cases b <;> rfl

/-- C8, as stated, fails on the code: the first comment that matches the
transfer-source marker (comment 21) does not carry the cancel reaction, and
yet a `RevertAction` is returned; it names the org/repo and the id of the
second marker comment (22), which carries the reaction. -/
theorem C8_counterexample :
    revertMatch "Moved. <!-- simili-transfer-source: \x7b\"org\":\"src\",\"repo\":\"home\"\x7d -->"
      = some "\x7b\"org\":\"src\",\"repo\":\"home\"\x7d" ∧
    twoMarkers.UnmarshalSource "\x7b\"org\":\"src\",\"repo\":\"home\"\x7d" = .ok ⟨"src", "home"⟩ ∧
    HasReaction (twoMarkers.ListCommentReactions 21) twoMarkers.CancelReaction = .ok false ∧
    (CheckForRevert twoMarkers sampleIssue).1 = .ok (some ⟨"old", "place", 22⟩) := by
  refine ⟨by decide, rfl, rfl, ?_⟩
  rfl

/-- C8, amended: when delayed actions and optimistic transfers are both
enabled and comment listing succeeds, the verdict of `CheckForRevert` is
decided by the first comment, in list order, whose body matches the
transfer-source marker with a payload that decodes and whose reactions, read
without error, include the configured cancel reaction: a `RevertAction` is
returned exactly when there is such a comment, and it names the org/repo of
that comment's metadata and that comment's id. Marker comments without the
reaction are passed over. When either option is disabled the result is
(nil, nil) and no tracker call is made. -/
theorem C8_first_reacted_marker (env : RevertEnv) (issue : Issue) :
    ((env.DelayedEnabled = false ∨ env.OptimisticTransfers = false) →
      CheckForRevert env issue = (.ok none, [])) ∧
    (∀ comments, env.DelayedEnabled = true → env.OptimisticTransfers = true →
      env.ListComments = .ok comments →
      (∀ pre c post a, comments = pre ++ c :: post →
        (∀ x ∈ pre, revertVerdict env x = none) → revertVerdict env c = some a →
        (CheckForRevert env issue).1 = .ok (some a)) ∧
      ((∀ x ∈ comments, revertVerdict env x = none) →
        (CheckForRevert env issue).1 = .ok none)) ∧
    (∀ c a, revertVerdict env c = some a →
      ∃ payload metadata, revertMatch c.Body = some payload ∧
        env.UnmarshalSource payload = .ok metadata ∧
        HasReaction (env.ListCommentReactions c.ID) env.CancelReaction = .ok true ∧
        a = ⟨metadata.Org, metadata.Repo, c.ID⟩) ∧
    (∀ reactions reactionType, HasReaction (.ok reactions) reactionType = .ok true ↔
      ∃ r ∈ reactions, r.Content = reactionType) := by
  refine ⟨?_, ?_, ?_, ?_⟩
  · rintro (h | h) <;> simp [CheckForRevert, h]
  · intro comments hd ho hl
    have hcf : (CheckForRevert env issue).1 = .ok (checkLoop env issue comments).1 := by
      simp [CheckForRevert, hd, ho, hl]
    rw [hcf]
    constructor
    · intro pre c post a hc hpre hv
      subst hc
      congr 1
      clear hl hcf
      induction pre with
      | nil => simp only [List.nil_append, checkLoop_cons, hv]
      | cons p ps ih =>
        have hp : revertVerdict env p = none := hpre p (List.mem_cons_self _ _)
        simp only [List.cons_append, checkLoop_cons, hp]
        exact ih (fun x hx => hpre x (List.mem_cons_of_mem _ hx))
    · intro hall
      congr 1
      clear hl hcf
      induction comments with
      | nil => rfl
      | cons p ps ih =>
        have hp : revertVerdict env p = none := hall p (List.mem_cons_self _ _)
        simp only [checkLoop_cons, hp]
        exact ih (fun x hx => hall x (List.mem_cons_of_mem _ hx))
  · intro c a hv
    unfold revertVerdict at hv
    cases h1 : revertMatch c.Body with
    | none => simp [h1] at hv
    | some payload =>
      cases h2 : env.UnmarshalSource payload with
      | error e => simp [h1, h2] at hv
      | ok metadata =>
        cases h3 : HasReaction (env.ListCommentReactions c.ID) env.CancelReaction with
        | error e => simp [h1, h2, h3] at hv
        | ok b =>
          cases b with
          | false => simp [h1, h2, h3] at hv
          | true =>
            simp [h1, h2, h3] at hv
            exact ⟨payload, metadata, rfl, h2, rfl, hv.symm⟩
  · intro reactions reactionType
    simp [HasReaction]

/-- C8 amended, at a concrete input: in `twoMarkers` the first comment with
a verdict is comment 22, after comment 21 which has none. -/
theorem C8_first_reacted_marker_witness :
    (CheckForRevert twoMarkers sampleIssue).1 = .ok (some ⟨"old", "place", 22⟩) ∧
    CheckForRevert { twoMarkers with OptimisticTransfers := false } sampleIssue
      = (.ok none, []) :=
  ⟨((C8_first_reacted_marker twoMarkers sampleIssue).2.1 _ rfl rfl rfl).1
      [⟨21, "Moved. <!-- simili-transfer-source: \x7b\"org\":\"src\",\"repo\":\"home\"\x7d -->"⟩]
      ⟨22, "Moved. <!-- simili-transfer-source: \x7b\"org\":\"old\",\"repo\":\"place\"\x7d -->"⟩
      [] ⟨"old", "place", 22⟩ rfl
      (by
        intro x hx
        rw [List.mem_singleton.mp hx]
        rfl)
      rfl,
   (C8_first_reacted_marker { twoMarkers with OptimisticTransfers := false } sampleIssue).1
      (Or.inr rfl)⟩

/-! ### Executor.Transfer in dry-run mode -/

/-- A result of `Transfer` that only adds existence and already-transferred
reads to the trace posts no comment, makes no transfer and deletes nothing. -/
theorem reads_only_counts (issue : Issue) (t : Tracker) (extra : List Call)
    (hextra : ∀ c ∈ extra, (∃ o r, c = Call.RepoExists o r) ∨
      c = Call.WasAlreadyTransferred issue.Org issue.Repo issue.Number) :
    countPostComment (t.calls ++ extra) = countPostComment t.calls ∧
    countTransferIssue (t.calls ++ extra) = countTransferIssue t.calls ∧
    countVectorDelete (t.calls ++ extra) = countVectorDelete t.calls := by
  simp only [countPostComment, countTransferIssue, countVectorDelete, List.countP_append,
    add_right_eq_self, List.countP_eq_zero]
  refine ⟨?_, ?_, ?_⟩ <;>
  · intro c hc
    rcases hextra c hc with ⟨o, r, rfl⟩ | rfl <;> simp

/-- C11: in dry-run mode `Transfer` makes no mutating collaborator call,
whatever the issue, target and rule (a nil rule included): the trace grows by
the existence read and the already-transferred read at most, no comment is
posted, no transfer is made, nothing is deleted from the similarity index,
nothing is recorded as transferred or printed, and the call does not panic.
When the target parses, the target repository exists and both reads succeed,
it returns success. -/
theorem C11_dry_run_reads_only (ans : Answers) (issue : Issue) (targetRepo : String)
    (rule : Option TransferRule) (t : Tracker) :
    (Transfer true ans issue targetRepo rule t).1 ≠ .panic ∧
    (Transfer true ans issue targetRepo rule t).2.transferred = t.transferred ∧
    (Transfer true ans issue targetRepo rule t).2.printed = t.printed ∧
    (∃ extra, (Transfer true ans issue targetRepo rule t).2.calls = t.calls ++ extra ∧
      ∀ c ∈ extra, (∃ o r, c = .RepoExists o r) ∨
        c = .WasAlreadyTransferred issue.Org issue.Repo issue.Number) ∧
    countPostComment (Transfer true ans issue targetRepo rule t).2.calls
      = countPostComment t.calls ∧
    countTransferIssue (Transfer true ans issue targetRepo rule t).2.calls
      = countTransferIssue t.calls ∧
    countVectorDelete (Transfer true ans issue targetRepo rule t).2.calls
      = countVectorDelete t.calls ∧
    (∀ o r, ans.ParseRepo targetRepo = .ok (o, r) → ans.RepoExists o r = .ok true →
      ans.WasAlreadyTransferredErr = none →
      (Transfer true ans issue targetRepo rule t).1 = .ok) := by
  have key : ∃ res extra, Transfer true ans issue targetRepo rule t
        = (res, { t with calls := t.calls ++ extra }) ∧ res ≠ .panic ∧
      (∀ c ∈ extra, (∃ o r, c = Call.RepoExists o r) ∨
        c = Call.WasAlreadyTransferred issue.Org issue.Repo issue.Number) ∧
      (∀ o r, ans.ParseRepo targetRepo = .ok (o, r) → ans.RepoExists o r = .ok true →
        ans.WasAlreadyTransferredErr = none → res = .ok) := by
    cases h1 : ans.ParseRepo targetRepo with
    | error e =>
      exact ⟨.error e, [], by simp [Transfer, h1], by simp, by simp, by simp⟩
    | ok p =>
      obtain ⟨o, r⟩ := p
      cases h2 : ans.RepoExists o r with
      | error e =>
        refine ⟨_, [.RepoExists o r], by simp [Transfer, h1, h2, Tracker.record]; rfl,
          by simp, by simp, ?_⟩
        intro o2 r2 hp he
        simp only [Except.ok.injEq, Prod.mk.injEq] at hp
        rw [← hp.1, ← hp.2, h2] at he
        simp at he
      | ok b =>
        cases b with
        | false =>
          refine ⟨_, [.RepoExists o r], by simp [Transfer, h1, h2, Tracker.record]; rfl,
            by simp, by simp, ?_⟩
          intro o2 r2 hp he
          simp only [Except.ok.injEq, Prod.mk.injEq] at hp
          rw [← hp.1, ← hp.2, h2] at he
          simp at he
        | true =>
          cases h3 : ans.WasAlreadyTransferredErr with
          | some e =>
            refine ⟨_, [.RepoExists o r,
                .WasAlreadyTransferred issue.Org issue.Repo issue.Number],
              by simp [Transfer, h1, h2, h3, Tracker.record]; rfl, by simp, by simp, ?_⟩
            intro o2 r2 _ _ hs
            simp at hs
          | none =>
            refine ⟨.ok, [.RepoExists o r,
                .WasAlreadyTransferred issue.Org issue.Repo issue.Number], ?_, by simp,
              by simp, fun _ _ _ _ _ => rfl⟩
            by_cases ht : (issue.Org, issue.Repo, issue.Number) ∈ t.transferred <;>
              simp [Transfer, h1, h2, h3, Tracker.wasTransferred, Tracker.record, ht]
  obtain ⟨res, extra, hres, hp, hextra, hok⟩ := key
  obtain ⟨c1, c2, c3⟩ := reads_only_counts issue t extra hextra
  rw [hres]
  exact ⟨hp, rfl, rfl, ⟨extra, rfl, hextra⟩, c1, c2, c3, hok⟩

/-- C11 at a concrete input: a dry run with a nil rule on a fresh tracker,
every collaborator answering without error. -/
theorem C11_dry_run_reads_only_witness :
    (Transfer true allFine sampleIssue "o2/r2" none freshTracker).1 = .ok ∧
    countPostComment (Transfer true allFine sampleIssue "o2/r2" none freshTracker).2.calls
      = countPostComment freshTracker.calls :=
  ⟨(C11_dry_run_reads_only allFine sampleIssue "o2/r2" none freshTracker).2.2.2.2.2.2.2
      "o2" "r2" rfl rfl rfl,
   (C11_dry_run_reads_only allFine sampleIssue "o2/r2" none freshTracker).2.2.2.2.1⟩

/-! ### PendingAction.IsExpired -/

/-- C14: `IsExpired`, evaluated at the instant `now`, is true exactly when
`now` is strictly after `ExpiresAt`; it is false at `ExpiresAt` itself and one
nanosecond before it, and true one nanosecond after it. -/
theorem C14_is_expired_iff (now : Time) (a : PendingAction) :
    (IsExpired now a = true ↔ a.ExpiresAt.unixNano < now.unixNano) ∧
    IsExpired a.ExpiresAt a = false ∧
    IsExpired (a.ExpiresAt.Add (-1)) a = false ∧
    IsExpired (a.ExpiresAt.Add 1) a = true := by
  refine ⟨?_, ?_, ?_, ?_⟩ <;>
    simp only [IsExpired, Time.After, Time.Add, decide_eq_true_eq, decide_eq_false_iff_not] <;>
    omega

/-! ### TransferCheck.Run: rules before router, and the pending action -/

/-- What `Run` leaves behind once the configuration is found and the loop
guard has let the issue pass, in terms of the target after the rule step and
the router step. -/
theorem Run_passed (env : RunEnv) (ctx : Context) (rc : RepoConfig)
    (hrc : env.repoConfig = some rc) (hg : isReverted env.gh ctx.Issue = false) :
    ∃ rt : String,
      rt = (if rc.TransferRules.length > 0 then env.Match rc.TransferRules ctx.Issue else "") ∧
      (Run env ctx).routed = (decide (rt = "") && env.RouterEnabled) ∧
      (Run env ctx).err = none ∧
      (Run env ctx).target
        = (if (decide (rt = "") && env.RouterEnabled) = true then aiTarget env ctx.Issue rt
           else rt) ∧
      ((Run env ctx).target = "" → (Run env ctx).ctx = ctx) ∧
      ((Run env ctx).target ≠ "" →
        (Run env ctx).ctx.Issue = ctx.Issue ∧
        (Run env ctx).ctx.TransferTarget = (Run env ctx).target ∧
        (Run env ctx).ctx.PendingAction =
          if env.DelayedEnabled = true then
            some ⟨ActionTypeTransfer, ctx.Issue.Org, ctx.Issue.Repo, ctx.Issue.Number,
              (Run env ctx).target, 0, env.now2, env.now1.Add (hoursDuration env.DelayHours), []⟩
          else ctx.PendingAction) := by
  refine ⟨_, rfl, ?_⟩
  unfold Run
  simp only [hrc, hg, Bool.false_eq_true, if_false]
  generalize (if rc.TransferRules.length > 0 then env.Match rc.TransferRules ctx.Issue else "")
    = rt
  generalize (if (decide (rt = "") && env.RouterEnabled) = true then aiTarget env ctx.Issue rt
    else rt) = tg
  by_cases h0 : tg = ""
  · simp [h0]
  · by_cases hd : env.DelayedEnabled = true <;> simp [h0, hd]

/-- C15: for an issue that passes the loop guard (its repository being
configured), when transfer rules are configured and the matcher returns a
non-empty target, `Run` resolves exactly that target and does not call the
router, whether or not the router is enabled; the router is called exactly
when no rule matched and the router is enabled; an error of the router
leaves the target unresolved and the context untouched; and `Run` returns no
error in every case. -/
theorem C15_rules_before_router (env : RunEnv) (ctx : Context) (rc : RepoConfig)
    (hrc : env.repoConfig = some rc) (hg : isReverted env.gh ctx.Issue = false) :
    (Run env ctx).err = none ∧
    (rc.TransferRules ≠ [] → env.Match rc.TransferRules ctx.Issue ≠ "" →
      (Run env ctx).target = env.Match rc.TransferRules ctx.Issue ∧
      (Run env ctx).ctx.TransferTarget = env.Match rc.TransferRules ctx.Issue ∧
      (Run env ctx).routed = false) ∧
    ((Run env ctx).routed = true ↔
      (rc.TransferRules = [] ∨ env.Match rc.TransferRules ctx.Issue = "") ∧
        env.RouterEnabled = true) ∧
    (∀ e, (Run env ctx).routed = true → env.Route = .error e →
      (Run env ctx).target = "" ∧ (Run env ctx).ctx = ctx) := by
  obtain ⟨rt, hrt, hrouted, herr, htarget, hnone, hsome⟩ := Run_passed env ctx rc hrc hg
  refine ⟨herr, ?_, ?_, ?_⟩
  · intro hrules hm
    have hlen : rc.TransferRules.length > 0 := List.length_pos.mpr hrules
    simp only [hlen, if_true] at hrt
    have hrt0 : ¬ rt = "" := by rw [hrt]; exact hm
    have hr : (Run env ctx).routed = false := by simp [hrouted, hrt0]
    have ht : (Run env ctx).target = rt := by simp [htarget, hrt0]
    rw [← hrt]
    exact ⟨ht, by rw [(hsome (by rw [ht]; exact hrt0)).2.1, ht], hr⟩
  · rw [hrouted, hrt]
    simp only [Bool.and_eq_true, decide_eq_true_eq]
    by_cases hrules : rc.TransferRules = []
    · simp [hrules]
    · have hlen : rc.TransferRules.length > 0 := List.length_pos.mpr hrules
      simp [hlen, hrules]
  · intro e hr hroute
    have hr2 : (decide (rt = "") && env.RouterEnabled) = true := by rw [← hrouted]; exact hr
    have hrt0 : rt = "" := by
      simp only [Bool.and_eq_true, decide_eq_true_eq] at hr2
      exact hr2.1
    have ht : (Run env ctx).target = "" := by
      rw [htarget, if_pos hr2]
      simp [aiTarget, hroute, hrt0]
    exact ⟨ht, hnone ht⟩

/-- C15 at a concrete input: a rule that matches `o2/r2` while the router is
enabled and would answer `o3/r3`. -/
theorem C15_rules_before_router_witness :
    (Run (eagerEnv []) ⟨sampleIssue, "", none⟩).target = "o2/r2" ∧
    (Run (eagerEnv []) ⟨sampleIssue, "", none⟩).ctx.TransferTarget = "o2/r2" ∧
    (Run (eagerEnv []) ⟨sampleIssue, "", none⟩).routed = false :=
  (C15_rules_before_router (eagerEnv []) ⟨sampleIssue, "", none⟩ ⟨[emptyRule]⟩ rfl
    (by decide)).2.1 (by decide) (by decide)

/-- C16, what the code does: starting without pending action, `Run` produces
one exactly when a target was resolved and delayed actions are enabled; the
action has type transfer, the issue's org, repo and number and the resolved
target; its `ExpiresAt` is the first clock reading plus the delay and its
`ScheduledAt` is the second clock reading, so `ExpiresAt` is `ScheduledAt`
plus the delay only when the two readings are the same instant. -/
theorem C16_pending_action_two_clock_readings (env : RunEnv) (ctx : Context)
    (h0 : ctx.PendingAction = none) :
    ((Run env ctx).ctx.PendingAction ≠ none ↔
      (Run env ctx).target ≠ "" ∧ env.DelayedEnabled = true) ∧
    (∀ a, (Run env ctx).ctx.PendingAction = some a →
      a.Type_ = "transfer" ∧ a.Org = ctx.Issue.Org ∧ a.Repo = ctx.Issue.Repo ∧
      a.IssueNumber = ctx.Issue.Number ∧ a.Target = (Run env ctx).target ∧
      a.ScheduledAt = env.now2 ∧
      a.ExpiresAt = env.now1.Add (hoursDuration env.DelayHours) ∧
      (a.ExpiresAt = a.ScheduledAt.Add (hoursDuration env.DelayHours) ↔
        env.now1 = env.now2)) := by
  have hfields : ∀ (tg : String) (a : PendingAction),
      some (⟨ActionTypeTransfer, ctx.Issue.Org, ctx.Issue.Repo, ctx.Issue.Number, tg, 0,
        env.now2, env.now1.Add (hoursDuration env.DelayHours), []⟩ : PendingAction) = some a →
      a.Type_ = "transfer" ∧ a.Org = ctx.Issue.Org ∧ a.Repo = ctx.Issue.Repo ∧
      a.IssueNumber = ctx.Issue.Number ∧ a.Target = tg ∧
      a.ScheduledAt = env.now2 ∧
      a.ExpiresAt = env.now1.Add (hoursDuration env.DelayHours) ∧
      (a.ExpiresAt = a.ScheduledAt.Add (hoursDuration env.DelayHours) ↔
        env.now1 = env.now2) := by
    intro tg a ha
    simp only [Option.some.injEq] at ha
    subst ha
    refine ⟨rfl, rfl, rfl, rfl, rfl, rfl, rfl, ?_⟩
    obtain ⟨n1⟩ := env.now1
    obtain ⟨n2⟩ := env.now2
    simp only [Time.Add, Time.mk.injEq]
    omega
  cases hrc : env.repoConfig with
  | none =>
    have hrun : Run env ctx = ⟨ctx, none, false, ""⟩ := by simp [Run, hrc]
    rw [hrun]
    simp [h0]
  | some rc =>
    by_cases hg : isReverted env.gh ctx.Issue = true
    · have hrun : Run env ctx = ⟨ctx, none, false, ""⟩ := by simp [Run, hrc, hg]
      rw [hrun]
      simp [h0]
    · have hg2 : isReverted env.gh ctx.Issue = false := by simpa using hg
      obtain ⟨rt, _, _, _, _, hnone, hsome⟩ := Run_passed env ctx rc hrc hg2
      by_cases ht : (Run env ctx).target = ""
      · rw [hnone ht]
        simp [h0, ht]
      · have hp := (hsome ht).2.2
        by_cases hd : env.DelayedEnabled = true
        · simp only [hd, if_true] at hp
          refine ⟨by simp [hp, ht, hd], ?_⟩
          intro a ha
          rw [hp] at ha
          exact hfields _ a ha
        · simp only [hd, if_false] at hp
          rw [hp, h0]
          simp [hd]

/-- C16 at the failing input: the rule matches `o2/r2`, delayed actions are
enabled with 24 hours, and the clock reads 1000 ns and then 1001 ns. The
action is produced, and its `ExpiresAt` is one nanosecond short of
`ScheduledAt` plus 24 hours. -/
theorem C16_pending_action_two_clock_readings_witness :
    (Run (eagerEnv []) ⟨sampleIssue, "", none⟩).ctx.PendingAction
      = some ⟨"transfer", "o", "r", 7, "o2/r2", 0, ⟨1001⟩, ⟨86400000001000⟩, []⟩ ∧
    (⟨86400000001000⟩ : Time) ≠ (⟨1001⟩ : Time).Add (hoursDuration 24) ∧
    (((⟨86400000001000⟩ : Time) = (⟨1001⟩ : Time).Add (hoursDuration 24)) ↔
      (eagerEnv []).now1 = (eagerEnv []).now2) :=
  have hrun : (Run (eagerEnv []) ⟨sampleIssue, "", none⟩).ctx.PendingAction
      = some ⟨"transfer", "o", "r", 7, "o2/r2", 0, ⟨1001⟩, ⟨86400000001000⟩, []⟩ := by
    decide
  ⟨hrun, by decide,
    ((C16_pending_action_two_clock_readings (eagerEnv []) ⟨sampleIssue, "", none⟩ rfl).2
      _ hrun).2.2.2.2.2.2.2⟩

/-! ### Router.parseRoutingResponse -/

theorem dropWhile_of_head (p : Char → Bool) (l : List Char) (a : Char)
    (h : l.head? = some a) (ha : p a = false) : l.dropWhile p = l := by
  cases l with
  | nil => rfl
  | cons c cs =>
    simp only [List.head?_cons, Option.some.injEq] at h
    subst h
    simp [List.dropWhile_cons, ha]

/-- A text that neither begins nor ends with white space is left as it is by
`TrimSpace`. -/
theorem trimSpaceChars_self (l : List Char) (a b : Char) (h1 : l.head? = some a)
    (ha : isSpace a = false) (h2 : l.getLast? = some b) (hb : isSpace b = false) :
    trimSpaceChars l = l := by
  unfold trimSpaceChars
  rw [dropWhile_of_head isSpace l a h1 ha,
    dropWhile_of_head isSpace l.reverse b (by rw [List.head?_reverse]; exact h2) hb,
    List.reverse_reverse]

/-- `TrimSpace` removes one line feed on each side of a text that neither
begins nor ends with white space. -/
theorem trimSpaceChars_lines (l : List Char) (a b : Char) (h1 : l.head? = some a)
    (ha : isSpace a = false) (h2 : l.getLast? = some b) (hb : isSpace b = false) :
    trimSpaceChars ('\n' :: (l ++ ['\n'])) = l := by
  have hne : l ≠ [] := by
    rintro rfl
    simp at h1
  have hn : isSpace '\n' = true := by decide
  unfold trimSpaceChars
  have e1 : ('\n' :: (l ++ ['\n'])).dropWhile isSpace = l ++ ['\n'] := by
    rw [List.dropWhile_cons, if_pos hn]
    exact dropWhile_of_head isSpace _ a (by rw [List.head?_append_of_ne_nil _ hne]; exact h1) ha
  rw [e1, List.reverse_append, List.reverse_singleton, List.singleton_append,
    List.dropWhile_cons, if_pos hn,
    dropWhile_of_head isSpace l.reverse b (by rw [List.head?_reverse]; exact h2) hb,
    List.reverse_reverse]

theorem isPrefixOf_false_of_head (p l : List Char) (a b : Char) (hp : p.head? = some b)
    (hl : l.head? = some a) (hab : a ≠ b) : p.isPrefixOf l = false := by
  cases p with
  | nil => simp at hp
  | cons x xs =>
    cases l with
    | nil => rfl
    | cons y ys =>
      simp only [List.head?_cons, Option.some.injEq] at hp hl
      subst hp hl
      simp [List.isPrefixOf, Ne.symm hab]

theorem trimPrefixChars_none (p l : List Char) (a b : Char) (hp : p.head? = some b)
    (hl : l.head? = some a) (hab : a ≠ b) : trimPrefixChars l p = l := by
  simp [trimPrefixChars, isPrefixOf_false_of_head p l a b hp hl hab]

theorem trimPrefixChars_append (p l : List Char) : trimPrefixChars (p ++ l) p = l := by
  have h : p.isPrefixOf (p ++ l) = true := List.isPrefixOf_iff_prefix.mpr (List.prefix_append p l)
  simp [trimPrefixChars, h]

theorem trimSuffixChars_none (s l : List Char) (a b : Char) (hs : s.getLast? = some b)
    (hl : l.getLast? = some a) (hab : a ≠ b) : trimSuffixChars l s = l := by
  have h : s.isSuffixOf l = false := by
    unfold List.isSuffixOf
    exact isPrefixOf_false_of_head s.reverse l.reverse a b
      (by rw [List.head?_reverse]; exact hs) (by rw [List.head?_reverse]; exact hl) hab
  simp [trimSuffixChars, h]

theorem trimSuffixChars_append (s l : List Char) : trimSuffixChars (l ++ s) s = l := by
  have h : s.isSuffixOf (l ++ s) = true :=
    List.isSuffixOf_iff_suffix.mpr (List.suffix_append l s)
  simp [trimSuffixChars, h]

/-- A text that begins with an opening brace and ends with a closing brace
is handed to the decoder as it is. -/
theorem cleanResponse_object (r : String) (hh : r.data.head? = some '\x7b')
    (hl : r.data.getLast? = some '\x7d') : cleanResponse r = r := by
  have t1 := trimSpaceChars_self r.data _ _ hh (by decide) hl (by decide)
  unfold cleanResponse
  simp only [t1]
  rw [trimPrefixChars_none "```json".data r.data '\x7b' '`' rfl hh (by decide),
    trimPrefixChars_none "```".data r.data '\x7b' '`' rfl hh (by decide),
    trimSuffixChars_none "```".data r.data '\x7d' '`' rfl hl (by decide), t1]

theorem getLast?_fence (x : List Char) :
    (x ++ '\n' :: "```".data).getLast? = some '`' := by
  have e : x ++ '\n' :: "```".data = (x ++ ['\n', '`', '`']) ++ ['`'] := by simp
  rw [e, List.getLast?_concat]

/-- The text between the fences, after the first trims: a line feed, the
object, a line feed and the closing fence. -/
theorem cleanResponse_tail (r : List Char) (hh : r.head? = some '\x7b')
    (hl : r.getLast? = some '\x7d') :
    trimSpaceChars (trimSuffixChars (trimPrefixChars ('\n' :: (r ++ '\n' :: "```".data))
      "```".data) "```".data) = r := by
  rw [trimPrefixChars_none "```".data ('\n' :: (r ++ '\n' :: "```".data)) '\n' '`' rfl rfl
    (by decide)]
  have e : '\n' :: (r ++ '\n' :: "```".data) = ('\n' :: (r ++ ['\n'])) ++ "```".data := by simp
  rw [e, trimSuffixChars_append]
  exact trimSpaceChars_lines r _ _ hh (by decide) hl (by decide)

theorem cleanResponse_fenced_json (r : String) (hh : r.data.head? = some '\x7b')
    (hl : r.data.getLast? = some '\x7d') : cleanResponse ("```json\n" ++ r ++ "\n```") = r := by
  have hd : ("```json\n" ++ r ++ "\n```").data
      = "```json".data ++ ('\n' :: (r.data ++ '\n' :: "```".data)) := by
    simp [String.data_append]
  have t1 : trimSpaceChars ("```json".data ++ ('\n' :: (r.data ++ '\n' :: "```".data)))
      = "```json".data ++ ('\n' :: (r.data ++ '\n' :: "```".data)) :=
    trimSpaceChars_self _ '`' '`' rfl (by decide)
      (by
        have := getLast?_fence ("```json".data ++ '\n' :: r.data)
        simpa using this)
      (by decide)
  unfold cleanResponse
  simp only [hd, t1, trimPrefixChars_append]
  rw [cleanResponse_tail r.data hh hl]

theorem cleanResponse_fenced_plain (r : String) (hh : r.data.head? = some '\x7b')
    (hl : r.data.getLast? = some '\x7d') : cleanResponse ("```\n" ++ r ++ "\n```") = r := by
  have hd : ("```\n" ++ r ++ "\n```").data
      = "```".data ++ ('\n' :: (r.data ++ '\n' :: "```".data)) := by
    simp [String.data_append]
  have t1 : trimSpaceChars ("```".data ++ ('\n' :: (r.data ++ '\n' :: "```".data)))
      = "```".data ++ ('\n' :: (r.data ++ '\n' :: "```".data)) :=
    trimSpaceChars_self _ '`' '`' rfl (by decide)
      (by
        have := getLast?_fence ("```".data ++ '\n' :: r.data)
        simpa using this)
      (by decide)
  have t2 : trimPrefixChars ("```".data ++ ('\n' :: (r.data ++ '\n' :: "```".data)))
      "```json".data = "```".data ++ ('\n' :: (r.data ++ '\n' :: "```".data)) := by
    simp [trimPrefixChars, List.isPrefixOf]
  unfold cleanResponse
  simp only [hd, t1, t2]
  have t3 : trimPrefixChars ("```".data ++ ('\n' :: (r.data ++ '\n' :: "```".data))) "```".data
      = '\n' :: (r.data ++ '\n' :: "```".data) := trimPrefixChars_append _ _
  have t4 := cleanResponse_tail r.data hh hl
  rw [trimPrefixChars_none "```".data ('\n' :: (r.data ++ '\n' :: "```".data)) '\n' '`' rfl rfl
    (by decide)] at t4
  rw [t3, t4]

/-- C12: for every text `r` that begins with an opening brace and ends with
a closing brace, `parseRoutingResponse` gives the same outcome on `r` inside a
code fence, with or without the word `json`, as on `r` itself: the result
decoded from `r` when `r` decodes, and an error when it does not. A response
that the decoder rejects, such as "not json", yields an error and no
result. -/
theorem C12_fence_is_transparent (env : RouterEnv) (r : String)
    (hh : r.data.head? = some '\x7b') (hl : r.data.getLast? = some '\x7d') :
    parseRoutingResponse env ("```json\n" ++ r ++ "\n```") = parseRoutingResponse env r ∧
    parseRoutingResponse env ("```\n" ++ r ++ "\n```") = parseRoutingResponse env r ∧
    (∀ result, env.Unmarshal r = .ok result → parseRoutingResponse env r = .ok result) ∧
    (∀ e, env.Unmarshal r = .error e →
      parseRoutingResponse env r = .error ("failed to parse AI routing response: " ++ e)) ∧
    (∀ e, env.Unmarshal "not json" = .error e →
      parseRoutingResponse env "not json"
        = .error ("failed to parse AI routing response: " ++ e)) := by
  have hc : cleanResponse "not json" = "not json" := by decide
  refine ⟨?_, ?_, ?_, ?_, ?_⟩
  · simp only [parseRoutingResponse, cleanResponse_fenced_json r hh hl,
      cleanResponse_object r hh hl]
  · simp only [parseRoutingResponse, cleanResponse_fenced_plain r hh hl,
      cleanResponse_object r hh hl]
  · intro result h
    simp only [parseRoutingResponse, cleanResponse_object r hh hl, h]
  · intro e h
    simp only [parseRoutingResponse, cleanResponse_object r hh hl, h]
  · intro e h
    simp only [parseRoutingResponse, hc, h]

/-- C12 at concrete inputs: the reply of the router test inside a `json`
fence is decoded like the reply itself, and "not json" is an error. -/
theorem C12_fence_is_transparent_witness :
    parseRoutingResponse (replyEnv "") ("```json\n" ++ sampleReply ++ "\n```")
      = parseRoutingResponse (replyEnv "") sampleReply ∧
    parseRoutingResponse (replyEnv "") sampleReply
      = .ok ⟨"similigh/nexusflow-core", 19 / 20, "Server bug"⟩ ∧
    parseRoutingResponse (replyEnv "") "not json"
      = .error ("failed to parse AI routing response: " ++ "invalid character") :=
  have h := C12_fence_is_transparent (replyEnv "") sampleReply (by decide) (by decide)
  ⟨h.1, h.2.2.1 _ rfl, h.2.2.2.2 _ rfl⟩

/-! ### Router.Route -/

/-- The catalog of destinations is non-empty exactly when some configured
repository is enabled and has a non-empty description. -/
theorem destinations_ne_nil_iff (repos : List RepositoryConfig) :
    destinations repos ≠ [] ↔
      ∃ repo ∈ repos, repo.Enabled = true ∧ repo.Description ≠ "" := by
  induction repos with
  | nil => simp [destinations]
  | cons repo rest ih =>
    unfold destinations
    by_cases h : repo.Enabled = true ∧ repo.Description ≠ ""
    · rw [if_pos h]
      constructor
      · intro _
        exact ⟨repo, List.mem_cons_self _ _, h⟩
      · intro _
        exact List.cons_ne_nil _ _
    · rw [if_neg h, ih]
      constructor
      · rintro ⟨x, hx, hp⟩
        exact ⟨x, List.mem_cons_of_mem _ hx, hp⟩
      · rintro ⟨x, hx, hp⟩
        rcases List.mem_cons.mp hx with rfl | hx
        · exact absurd hp h
        · exact ⟨x, hx, hp⟩

/-- C13: `Route` calls the language model exactly when some configured
repository is enabled and has a non-empty description, and then once, with
the system text and the prompt it built; when there is none it returns
(nil, nil) without a call; when there is one and the model replies with a
JSON object that decodes, `Route` returns the decoded result: the
target_repo, confidence and reason of the reply. -/
theorem C13_route_calls_model_iff_catalog (env : RouterEnv) (repos : List RepositoryConfig)
    (issue : Issue) :
    ((Route env repos issue).2 ≠ [] ↔
      ∃ repo ∈ repos, repo.Enabled = true ∧ repo.Description ≠ "") ∧
    ((Route env repos issue).2 = [] ∨
      (Route env repos issue).2 = [(routerSystem, routerPrompt env repos issue)]) ∧
    ((¬ ∃ repo ∈ repos, repo.Enabled = true ∧ repo.Description ≠ "") →
      Route env repos issue = (.ok none, [])) ∧
    (∀ reply result, (∃ repo ∈ repos, repo.Enabled = true ∧ repo.Description ≠ "") →
      env.Complete routerSystem (routerPrompt env repos issue) = .ok reply →
      reply.data.head? = some '\x7b' → reply.data.getLast? = some '\x7d' →
      env.Unmarshal reply = .ok result →
      (Route env repos issue).1 = .ok (some result)) := by
  have hiff := destinations_ne_nil_iff repos
  by_cases hd : destinations repos = []
  · have hnone : ¬ ∃ repo ∈ repos, repo.Enabled = true ∧ repo.Description ≠ "" := by
      rw [← hiff]
      simp [hd]
    have hr : Route env repos issue = (.ok none, []) := by simp [Route, hd]
    rw [hr]
    refine ⟨by simp [hnone], Or.inl rfl, fun _ => rfl, ?_⟩
    intro reply result hsome
    exact absurd hsome hnone
  · have hsome : ∃ repo ∈ repos, repo.Enabled = true ∧ repo.Description ≠ "" := hiff.mp hd
    have hlen : ¬ (destinations repos).length = 0 := by
      intro h
      exact hd (List.length_eq_zero.mp h)
    have hcalls : (Route env repos issue).2 = [(routerSystem, routerPrompt env repos issue)] := by
      simp only [Route, hlen, if_false]
      cases env.Complete routerSystem (routerPrompt env repos issue) <;> rfl
    refine ⟨by simp [hcalls, hsome], Or.inr hcalls, fun h => absurd hsome h, ?_⟩
    intro reply result _ hc hh hl hu
    simp only [Route, hlen, if_false, hc, parseRoutingResponse, cleanResponse_object reply hh hl,
      hu]

/-- C13 at concrete inputs: with the two repositories of the router test the
model is called once and its reply is returned decoded; with no repository
the model is not called. -/
theorem C13_route_calls_model_iff_catalog_witness :
    (Route (replyEnv sampleReply) testRepos sampleIssue).1
      = .ok (some ⟨"similigh/nexusflow-core", 19 / 20, "Server bug"⟩) ∧
    Route (replyEnv sampleReply) [] sampleIssue = (.ok none, []) :=
  ⟨(C13_route_calls_model_iff_catalog (replyEnv sampleReply) testRepos sampleIssue).2.2.2
      sampleReply _
      ⟨⟨"similigh", "nexusflow-core", "Core engine logic", true⟩, by decide, by decide⟩
      rfl (by decide) (by decide) rfl,
   (C13_route_calls_model_iff_catalog (replyEnv sampleReply) [] sampleIssue).2.2.1
      (by simp)⟩

end Simili
